import Mathlib

/-!
Verification of the galaxy composition and terrain layering engine
(`src/server/services/map.ts`).

The TypeScript service is embedded shallowly:

* stars are values in a `List Star`; the in-place mutations of the service
  become functional updates at list positions (JavaScript object references
  are identified with list positions, which is faithful because every star is
  a distinct freshly created object);
* JavaScript numbers are carried as rationals `ℚ`; `Math.floor` and
  `Math.ceil` are `Int.floor` / `Int.ceil`.  Where rounding is observable —
  the quota expressions `Math.floor((stars.length - playerCount) / 100 *
  percentage)` — each arithmetic operation is modelled by `fl`, the exact
  IEEE-754 binary64 round-to-nearest-even (see `singlePassCount` and
  `wormHolePairCount`): in doubles `29 / 100 * 100` is
  `28.999999999999996`, so such a quota can fall below the exact
  `⌊N·P/100⌋`;
* the external collaborators that are not part of the repository snapshot
  (coordinate strategies, star factory, name service, dead-star predicate,
  the seeded `RandomGen` / `shuffle` utility and `randomService`) are either
  parameters (`Services`) or definitions modelled from the specification, as
  marked in their doc comments;
* fallible code (the wormhole pairing loop, which dereferences `undefined`
  when it runs past the end of its winner list, and the galaxy-type switch,
  which throws) is modelled with `Option` / `Except`.
-/

namespace Solaris

/-- Natural resources of a star: the three channels of `map.ts`. -/
structure NaturalResources where
  economy : ℚ
  industry : ℚ
  science : ℚ
deriving DecidableEq, Repr

/-- A star entity, with exactly the fields of the `Star` data model that the
engine reads or writes.  `_id` is a natural number standing for the Mongo
ObjectId; `name` is `Option` because indexing past the end of the JavaScript
name array yields `undefined`. -/
structure Star where
  _id : Nat
  name : Option String
  homeStar : Bool
  warpGate : Bool
  wormHoleToStarId : Option Nat
  isNebula : Bool
  isAsteroidField : Bool
  isBinaryStar : Bool
  isBlackHole : Bool
  isPulsar : Bool
  naturalResources : NaturalResources
  location : ℚ × ℚ
  ownedByPlayerId : Option Nat
deriving DecidableEq, Repr

/-- The flat part of a strategy location: coordinates, home/linked marks,
resource payload and (for custom galaxies) an author-specified owner. -/
structure LocationBase where
  x : ℚ
  y : ℚ
  homeStar : Bool
  linked : Bool
  resources : NaturalResources
  playerId : Option Nat
deriving DecidableEq, Repr

/-- A strategy location.  A home location additionally carries the linked
satellite locations that it has already consumed (`linkedLocations`); the
satellites also appear in the strategy output flagged `linked`. -/
structure Location extends LocationBase where
  linkedLocations : List LocationBase
deriving DecidableEq, Repr

/-- Mirror of `game.constants.star.resources`. -/
structure StarResourceConstants where
  maxNaturalResources : ℚ
deriving DecidableEq, Repr

/-- Mirror of `game.constants.star`. -/
structure StarConstants where
  resources : StarResourceConstants
deriving DecidableEq, Repr

/-- Mirror of `game.constants`. -/
structure GameConstants where
  star : StarConstants
deriving DecidableEq, Repr

/-- Mirror of `game.settings.general`. -/
structure GeneralSettings where
  playerLimit : Nat
deriving DecidableEq, Repr

/-- Mirror of `game.settings.galaxy`.  The galaxy type is the raw topology
tag string of the configuration. -/
structure GalaxySettings where
  galaxyType : String
deriving DecidableEq, Repr

/-- Mirror of `game.settings.specialGalaxy`: per-feature percentages (a
percentage of `0` is falsy in JavaScript, so `0` disables the pass) and the
resource-distribution tag forwarded to the strategies. -/
structure SpecialGalaxySettings where
  resourceDistribution : String
  randomWarpGates : Nat
  randomWormHoles : Nat
  randomNebulas : Nat
  randomAsteroidFields : Nat
  randomBinaryStars : Nat
  randomBlackHoles : Nat
  randomPulsars : Nat
deriving DecidableEq, Repr

/-- Mirror of `game.settings`. -/
structure GameSettings where
  general : GeneralSettings
  galaxy : GalaxySettings
  specialGalaxy : SpecialGalaxySettings
deriving DecidableEq, Repr

/-- The slice of the `Game` document the engine reads (the star collection
`game.galaxy.stars` is passed to the functions explicitly, since the
embedding is functional). -/
structure Game where
  settings : GameSettings
  constants : GameConstants
deriving DecidableEq, Repr

/-- Modelled from the spec: the seeded `RandomGen` passed through the
engine.  It is a deterministic draw sequence `seq` together with the index
of the next draw; drawing below a bound takes the next element of the
sequence modulo the bound and advances the index. -/
structure RngState where
  seq : Nat → Nat
  idx : Nat

/-- Modelled from the spec: one draw of the seeded RNG below `bound`. -/
def RngState.next (r : RngState) (bound : Nat) : Nat × RngState :=
  (r.seq r.idx % bound, { r with idx := r.idx + 1 })

/-- Modelled from the spec: the shared `shuffle(rand, array)` utility
(`./utils`, not part of the repository snapshot).  The spec prescribes a
uniform permutation driven by the seeded RNG, consuming a fixed,
deterministic number of draws per call; we realise it as a draw-select
shuffle: repeatedly draw an index below the current length, move that
element to the output, and recurse on the remainder.  `fuel` is the
(initial) length of the list, making the recursion structural. -/
def shuffleGo {α : Type} : Nat → RngState → List α → List α × RngState
  | 0, r, _ => ([], r)
  | _ + 1, r, [] => ([], r)
  | fuel + 1, r, y :: ys =>
    let d := RngState.next r (y :: ys).length
    match (y :: ys)[d.1]? with
    | some picked =>
      let out := shuffleGo fuel d.2 ((y :: ys).eraseIdx d.1)
      (picked :: out.1, out.2)
    | none => ([], d.2)

/-- Modelled from the spec: `shuffle(rand, array)`, returning the permuted
array and the advanced RNG. -/
def shuffle {α : Type} (r : RngState) (xs : List α) : List α × RngState :=
  shuffleGo xs.length r xs

/-- The external services the map service is constructed with.  Each field
is the one method of the collaborator that `map.ts` calls; coordinate
strategies, the dead-star predicate, the split-resources predicate and the
ambient `randomService.getRandomNumberBetween` (modelled as a function of an
explicit draw counter) are all outside the repository snapshot. -/
structure Services where
  getRandomStarNames : Nat → List String
  circularMapService : Game → Nat → String → List Location
  spiralMapService : Game → Nat → String → List Location
  doughnutMapService : Game → Nat → String → List Location
  circularBalancedMapService : Game → Nat → String → Nat → List Location
  irregularMapService : RngState → Game → Nat → String → Nat → Option String → List Location
  customMapService : Option String → Nat → List Location
  isDeadStar : Star → Bool
  isSplitResources : Game → Bool
  getRandomNumberBetween : ℚ → ℚ → Nat → ℚ

/-- Modelled from the spec: `starService.generateUnownedStar(name, location,
resources)`.  The factory converts a location and a name into an unowned
star with all terrain flags clear; ids are drawn from an explicit counter so
that star ids are deterministic and distinct. -/
def generateUnownedStar (nextId : Nat) (name : Option String) (loc : LocationBase)
    (resources : NaturalResources) : Star :=
  { _id := nextId
    name := name
    homeStar := loc.homeStar
    warpGate := false
    wormHoleToStarId := none
    isNebula := false
    isAsteroidField := false
    isBinaryStar := false
    isBlackHole := false
    isPulsar := false
    naturalResources := resources
    location := (loc.x, loc.y)
    ownedByPlayerId := none }

/-- Modelled from the spec: `starService.generateCustomGalaxyStar(name,
location)` — the custom-galaxy factory preserves the author-specified
resources and ownership carried by the location payload. -/
def generateCustomGalaxyStar (nextId : Nat) (name : Option String) (loc : LocationBase) : Star :=
  { _id := nextId
    name := name
    homeStar := loc.homeStar
    warpGate := false
    wormHoleToStarId := none
    isNebula := false
    isAsteroidField := false
    isBinaryStar := false
    isBlackHole := false
    isPulsar := false
    naturalResources := loc.resources
    location := (loc.x, loc.y)
    ownedByPlayerId := loc.playerId }

/-- The assembly result of `generateStars`. -/
structure AssemblyResult where
  stars : List Star
  homeStars : List Nat
  linkedStars : List (List Nat)
  starLocations : List Location
deriving Repr

/-- The inner loop of `generateStars`: instantiate the linked locations of a
home location, threading the name index (`starNames[starNamesIndex++]`, so an
exhausted pool yields `undefined` names) and the id counter. -/
def instantiateLinked (isCustomGalaxy : Bool) (starNames : List String) :
    List LocationBase → Nat → Nat → List Star × Nat × Nat
  | [], nameIdx, nextId => ([], nameIdx, nextId)
  | linkedLocation :: rest, nameIdx, nextId =>
    let linkedStarName := starNames[nameIdx]?
    let linkedStar :=
      if isCustomGalaxy then generateCustomGalaxyStar nextId linkedStarName linkedLocation
      else generateUnownedStar nextId linkedStarName linkedLocation linkedLocation.resources
    let out := instantiateLinked isCustomGalaxy starNames rest (nameIdx + 1) (nextId + 1)
    (linkedStar :: out.1, out.2)

/-- The main loop of `generateStars` over the unlinked locations: create a
star for each location; for a home location additionally create its linked
stars and record the home / linked grouping. -/
def instantiateStars (isCustomGalaxy : Bool) (starNames : List String) :
    List Location → Nat → Nat → List Star × List Nat × List (List Nat) × Nat × Nat
  | [], nameIdx, nextId => ([], [], [], nameIdx, nextId)
  | starLocation :: rest, nameIdx, nextId =>
    let starName := starNames[nameIdx]?
    let star :=
      if isCustomGalaxy then generateCustomGalaxyStar nextId starName starLocation.toLocationBase
      else generateUnownedStar nextId starName starLocation.toLocationBase starLocation.resources
    if starLocation.homeStar then
      let linkedOut := instantiateLinked isCustomGalaxy starNames starLocation.linkedLocations
        (nameIdx + 1) (nextId + 1)
      let restOut := instantiateStars isCustomGalaxy starNames rest linkedOut.2.1 linkedOut.2.2
      (star :: (linkedOut.1 ++ restOut.1),
       star._id :: restOut.2.1,
       linkedOut.1.map Star._id :: restOut.2.2.1,
       restOut.2.2.2)
    else
      let restOut := instantiateStars isCustomGalaxy starNames rest (nameIdx + 1) (nextId + 1)
      (star :: restOut.1, restOut.2)

/-- `generateStars(rand, game, starCount, playerLimit, customJSON?,
customSeed?)`: select the coordinate strategy by topology tag (an unknown
tag throws a `ValidationError`, modelled as `Except.error`, before any star
is created), then instantiate a star for every unlinked location, linked
satellites included.  The write of the chosen star name back onto the
location object (used only for naming carriers downstream) is not modelled. -/
def generateStars (svc : Services) (rand : RngState) (game : Game) (starCount : Nat)
    (playerLimit : Nat) (customJSON : Option String) (customSeed : Option String) :
    Except String AssemblyResult :=
  let starNames := svc.getRandomStarNames starCount
  let starLocationsE : Except String (List Location) :=
    if game.settings.galaxy.galaxyType = "circular" then
      .ok (svc.circularMapService game starCount game.settings.specialGalaxy.resourceDistribution)
    else if game.settings.galaxy.galaxyType = "spiral" then
      .ok (svc.spiralMapService game starCount game.settings.specialGalaxy.resourceDistribution)
    else if game.settings.galaxy.galaxyType = "doughnut" then
      .ok (svc.doughnutMapService game starCount game.settings.specialGalaxy.resourceDistribution)
    else if game.settings.galaxy.galaxyType = "circular-balanced" then
      .ok (svc.circularBalancedMapService game starCount
        game.settings.specialGalaxy.resourceDistribution playerLimit)
    else if game.settings.galaxy.galaxyType = "irregular" then
      .ok (svc.irregularMapService rand game starCount
        game.settings.specialGalaxy.resourceDistribution playerLimit customSeed)
    else if game.settings.galaxy.galaxyType = "custom" then
      .ok (svc.customMapService customJSON playerLimit)
    else
      .error ("Galaxy type " ++ game.settings.galaxy.galaxyType ++
        " is not supported or has been disabled.")
  match starLocationsE with
  | .error e => .error e
  | .ok starLocations =>
    let isCustomGalaxy := game.settings.galaxy.galaxyType = "custom"
    let unlinkedStars := starLocations.filter (fun l => !l.linked)
    let out := instantiateStars isCustomGalaxy starNames unlinkedStars 0 0
    .ok { stars := out.1
          homeStars := out.2.1
          linkedStars := out.2.2.1
          starLocations := starLocations }

/-- Functional update of the star object at position `i` (JavaScript mutates
the shared object through the reference held by both the winners array and
the star collection). -/
def modifyStar : List Star → Nat → (Star → Star) → List Star
  | [], _, _ => []
  | s :: rest, 0, f => f s :: rest
  | s :: rest, i + 1, f => s :: modifyStar rest i f

/-- The marking loop shared by the feature passes: `for (let star of
winners) { ...mutate star... }`, where each winner is a position/value pair
into the star collection. -/
def markStars (f : Star → Star) (winners : List (Nat × Star)) (stars : List Star) : List Star :=
  winners.foldl (fun acc p => modifyStar acc p.1 f) stars

/-- The marking loop for the passes that also consume draws of the ambient
`randomService`: the update may depend on the current draw counter, and
`adv` advances the counter once per winner (or not at all, for passes that
draw nothing in the current mode). -/
def markStarsIdx (f : Nat → Star → Star) (adv : Nat → Nat) (winners : List (Nat × Star))
    (stars : List Star) (k0 : Nat) : List Star × Nat :=
  winners.foldl (fun acc p => (modifyStar acc.1 p.1 (f acc.2), adv acc.2)) (stars, k0)

/-! ### IEEE-754 binary64 arithmetic

JavaScript numbers are IEEE-754 double-precision floats, so every quota
expression `Math.floor((stars.length - playerCount) / 100 * percentage)` is
evaluated operation by operation in binary64: each division and
multiplication rounds its exact result to 53 significant bits, nearest,
ties to even.  This matters: `29 / 100 * 100` evaluates to
`28.999999999999996`, so the code's `Math.floor` yields `28`, not `29`.
`fl` below is that rounding, modelled exactly over `ℚ` (every binary64
value is a rational, and rounding is a function `ℚ → ℚ`).  Overflow and
subnormal handling are omitted: all values reachable in the quota
computations (array lengths, percentages and their quotients) lie well
inside the normal range. -/

/-- Fuel-driven base-2 logarithm on naturals: number of halvings needed to
reach `1`. -/
@[irreducible] def natLog2Go : Nat → Nat → Nat
  | 0, _ => 0
  | fuel + 1, n => if n ≤ 1 then 0 else natLog2Go fuel (n / 2) + 1

/-- Base-2 logarithm (floor) of a natural number; `0` for inputs below 2. -/
@[irreducible] def natLog2 (n : Nat) : Nat := natLog2Go n n

/-- Floor of the base-2 logarithm of a positive rational: the largest `e`
with `2^e ≤ q`, found by estimating from the numerator's and denominator's
bit lengths and adjusting. -/
@[irreducible] def floorLog2 (q : ℚ) : ℤ :=
  let e0 : ℤ := (natLog2 q.num.natAbs : ℤ) - (natLog2 q.den : ℤ)
  if (2:ℚ) ^ (e0 + 1) ≤ q then e0 + 1
  else if (2:ℚ) ^ e0 ≤ q then e0
  else e0 - 1

/-- Round a rational to the nearest integer, breaking ties towards the even
integer. -/
@[irreducible] def roundNearestEven (m : ℚ) : ℤ :=
  let f := ⌊m⌋
  if m - (f : ℚ) < 1/2 then f
  else if (1:ℚ)/2 < m - (f : ℚ) then f + 1
  else if f % 2 = 0 then f else f + 1

/-- IEEE-754 binary64 rounding of an exact (rational) value: round to 53
significant bits, nearest, ties to even. -/
@[irreducible] def fl (q : ℚ) : ℚ :=
  if q = 0 then 0
  else
    let scale : ℚ := (2:ℚ) ^ (floorLog2 |q| - 52)
    ((roundNearestEven (q / scale) : ℤ) : ℚ) * scale

/-- The count of a single-star feature pass as the source computes it:
`Math.floor((stars.length - playerCount) / 100 * percentage)`, with the
subtraction, the division and the multiplication each evaluated in binary64
(each operation result rounded by `fl`; the integer operands themselves are
exact doubles). -/
@[irreducible] def singlePassCount (len playerCount percentage : Nat) : Nat :=
  (⌊fl (fl (fl ((len : ℚ) - (playerCount : ℚ)) / 100) * (percentage : ℚ))⌋).toNat

/-- The wormhole pair count:
`Math.floor((stars.length - playerCount) / 2 / 100 * percentage)` evaluated
in binary64, operation by operation. -/
@[irreducible] def wormHolePairCount (len playerCount percentage : Nat) : Nat :=
  (⌊fl (fl (fl (fl ((len : ℚ) - (playerCount : ℚ)) / 2) / 100) * (percentage : ℚ))⌋).toNat

/-- `_generateGates`: mark `Math.floor((starCount - playerCount) / 100 *
percentage)` (binary64 arithmetic) shuffled applicable stars as warp
gates. -/
def _generateGates (svc : Services) (rand : RngState) (stars : List Star)
    (playerCount : Nat) (percentage : Nat) : List Star × RngState :=
  let gateCount := singlePassCount stars.length playerCount percentage
  let applicableStars := stars.enum.filter
    (fun p => !p.2.homeStar && !p.2.warpGate && !svc.isDeadStar p.2)
  let shuffled := shuffle rand applicableStars
  let warpGateStars := shuffled.1.take gateCount
  (markStars (fun s => { s with warpGate := true }) warpGateStars stars, shuffled.2)

/-- The wormhole pairing loop: `for (let i = 0; i < wormHoleCount; i++)`
pairs winner `2i` with winner `2i+1`, writing each one's id into the other's
`wormHoleToStarId`.  When the winner list runs out while iterations remain,
the JavaScript dereferences `undefined` and throws: modelled as `none`. -/
def wormHoleLoop : Nat → List (Nat × Star) → List Star → Option (List Star)
  | 0, _, stars => some stars
  | count + 1, starA :: starB :: rest, stars =>
    let starsA := modifyStar stars starA.1
      (fun s => { s with wormHoleToStarId := some starB.2._id })
    let starsB := modifyStar starsA starB.1
      (fun s => { s with wormHoleToStarId := some starA.2._id })
    wormHoleLoop count rest starsB
  | _ + 1, _, _ => none

/-- `_generateWormHoles`: `Math.floor((starCount - playerCount) / 2 / 100 *
percentage)` (binary64 arithmetic) pairs among the shuffled applicable
(unpaired, non-home, alive) stars; pairing is two-sided within each
consecutive pair of winners. -/
def _generateWormHoles (svc : Services) (rand : RngState) (game : Game) (stars : List Star)
    (playerCount : Nat) (percentage : Nat) : Option (List Star × RngState) :=
  let wormHoleCount := wormHolePairCount stars.length playerCount percentage
  let applicableStars := stars.enum.filter
    (fun p => !p.2.homeStar && p.2.wormHoleToStarId.isNone && !svc.isDeadStar p.2)
  let shuffled := shuffle rand applicableStars
  let wormHoleStars := shuffled.1.take (wormHoleCount * 2)
  match wormHoleLoop wormHoleCount wormHoleStars stars with
  | some res => some (res, shuffled.2)
  | none => none

/-- `_generateNebulas`: mark the quota of shuffled applicable stars as
nebulas; in split-resources mode each winner's science is overwritten with a
draw from `[1.5 × max, 3 × max]` natural resources. -/
def _generateNebulas (svc : Services) (rand : RngState) (rsk : Nat) (game : Game)
    (stars : List Star) (playerCount : Nat) (percentage : Nat) : List Star × RngState × Nat :=
  let count := singlePassCount stars.length playerCount percentage
  let applicableStars := stars.enum.filter
    (fun p => !p.2.homeStar && !p.2.isNebula && !svc.isDeadStar p.2)
  let shuffled := shuffle rand applicableStars
  let nebulaStars := shuffled.1.take count
  let minResources := game.constants.star.resources.maxNaturalResources * 1.5
  let maxResources := game.constants.star.resources.maxNaturalResources * 3
  let out := markStarsIdx
    (fun k s =>
      if svc.isSplitResources game then
        { s with isNebula := true
                 naturalResources := { s.naturalResources with
                   science := svc.getRandomNumberBetween minResources maxResources k } }
      else { s with isNebula := true })
    (fun k => if svc.isSplitResources game then k + 1 else k)
    nebulaStars stars rsk
  (out.1, shuffled.2, out.2)

/-- `_generateAsteroidFields`: as nebulas, but the flag is
`isAsteroidField` and split-resources mode overwrites economy. -/
def _generateAsteroidFields (svc : Services) (rand : RngState) (rsk : Nat) (game : Game)
    (stars : List Star) (playerCount : Nat) (percentage : Nat) : List Star × RngState × Nat :=
  let count := singlePassCount stars.length playerCount percentage
  let applicableStars := stars.enum.filter
    (fun p => !p.2.homeStar && !p.2.isAsteroidField && !svc.isDeadStar p.2)
  let shuffled := shuffle rand applicableStars
  let asteroidFieldStars := shuffled.1.take count
  let minResources := game.constants.star.resources.maxNaturalResources * 1.5
  let maxResources := game.constants.star.resources.maxNaturalResources * 3
  let out := markStarsIdx
    (fun k s =>
      if svc.isSplitResources game then
        { s with isAsteroidField := true
                 naturalResources := { s.naturalResources with
                   economy := svc.getRandomNumberBetween minResources maxResources k } }
      else { s with isAsteroidField := true })
    (fun k => if svc.isSplitResources game then k + 1 else k)
    asteroidFieldStars stars rsk
  (out.1, shuffled.2, out.2)

/-- `_generateBinaryStars`: mark the quota as binary stars; split-resources
mode overwrites industry with one draw per winner, otherwise all three
channels are overwritten with one shared draw per winner. -/
def _generateBinaryStars (svc : Services) (rand : RngState) (rsk : Nat) (game : Game)
    (stars : List Star) (playerCount : Nat) (percentage : Nat) : List Star × RngState × Nat :=
  let minResources := game.constants.star.resources.maxNaturalResources * 1.5
  let maxResources := game.constants.star.resources.maxNaturalResources * 3
  let count := singlePassCount stars.length playerCount percentage
  let applicableStars := stars.enum.filter
    (fun p => !p.2.homeStar && !p.2.isBinaryStar && !svc.isDeadStar p.2)
  let shuffled := shuffle rand applicableStars
  let binaryStars := shuffled.1.take count
  let out := markStarsIdx
    (fun k s =>
      if svc.isSplitResources game then
        { s with isBinaryStar := true
                 naturalResources := { s.naturalResources with
                   industry := svc.getRandomNumberBetween minResources maxResources k } }
      else
        { s with isBinaryStar := true
                 naturalResources :=
                   { economy := svc.getRandomNumberBetween minResources maxResources k
                     industry := svc.getRandomNumberBetween minResources maxResources k
                     science := svc.getRandomNumberBetween minResources maxResources k } })
    (fun k => k + 1)
    binaryStars stars rsk
  (out.1, shuffled.2, out.2)

/-- `_generateBlackHoles`: mark the quota as black holes and scale each of
the three resource channels of a winner down to `Math.ceil(0.2 × value)`,
in every game mode. -/
def _generateBlackHoles (svc : Services) (rand : RngState) (game : Game) (stars : List Star)
    (playerCount : Nat) (percentage : Nat) : List Star × RngState :=
  let count := singlePassCount stars.length playerCount percentage
  let applicableStars := stars.enum.filter
    (fun p => !p.2.homeStar && !p.2.isBlackHole && !svc.isDeadStar p.2)
  let shuffled := shuffle rand applicableStars
  let blackHoleStars := shuffled.1.take count
  (markStars
    (fun s =>
      { s with isBlackHole := true
               naturalResources :=
                 { economy := ((⌈s.naturalResources.economy * 0.2⌉ : ℤ) : ℚ)
                   industry := ((⌈s.naturalResources.industry * 0.2⌉ : ℤ) : ℚ)
                   science := ((⌈s.naturalResources.science * 0.2⌉ : ℤ) : ℚ) } })
    blackHoleStars stars, shuffled.2)

/-- `_generatePulsars`: mark the quota of shuffled applicable stars as
pulsars; no resource effect. -/
def _generatePulsars (svc : Services) (rand : RngState) (game : Game) (stars : List Star)
    (playerCount : Nat) (percentage : Nat) : List Star × RngState :=
  let count := singlePassCount stars.length playerCount percentage
  let applicableStars := stars.enum.filter
    (fun p => !p.2.homeStar && !p.2.isPulsar && !svc.isDeadStar p.2)
  let shuffled := shuffle rand applicableStars
  let pulsarStars := shuffled.1.take count
  (markStars (fun s => { s with isPulsar := true }) pulsarStars stars, shuffled.2)

/-- `generateTerrain(rand, game)`: the seven feature passes in their fixed
order, each skipped when its percentage is `0` (falsy).  The star collection
`game.galaxy.stars` is the explicit `stars` argument; `rsk` is the draw
counter of the ambient `randomService`.  The result is `none` when the
wormhole pass crashes. -/
def generateTerrain (svc : Services) (rand : RngState) (rsk : Nat) (game : Game)
    (stars : List Star) : Option (List Star × RngState × Nat) :=
  let playerCount := game.settings.general.playerLimit
  let sg := game.settings.specialGalaxy
  let g1 := if sg.randomWarpGates ≠ 0 then
      _generateGates svc rand stars playerCount sg.randomWarpGates
    else (stars, rand)
  let g2o := if sg.randomWormHoles ≠ 0 then
      _generateWormHoles svc g1.2 game g1.1 playerCount sg.randomWormHoles
    else some g1
  match g2o with
  | none => none
  | some g2 =>
    let g3 := if sg.randomNebulas ≠ 0 then
        _generateNebulas svc g2.2 rsk game g2.1 playerCount sg.randomNebulas
      else (g2.1, g2.2, rsk)
    let g4 := if sg.randomAsteroidFields ≠ 0 then
        _generateAsteroidFields svc g3.2.1 g3.2.2 game g3.1 playerCount sg.randomAsteroidFields
      else g3
    let g5 := if sg.randomBinaryStars ≠ 0 then
        _generateBinaryStars svc g4.2.1 g4.2.2 game g4.1 playerCount sg.randomBinaryStars
      else g4
    let g6 := if sg.randomBlackHoles ≠ 0 then
        _generateBlackHoles svc g5.2.1 game g5.1 playerCount sg.randomBlackHoles
      else (g5.1, g5.2.1)
    let g7 := if sg.randomPulsars ≠ 0 then
        _generatePulsars svc g6.2 game g6.1 playerCount sg.randomPulsars
      else g6
    some (g7.1, g7.2, g5.2.2)

/-- JavaScript `Array.prototype.sort(comparator)` sorts in place (returning
the same array) and is stable; modelled as a stable insertion sort keeping
`a` before `b` whenever `comparator(a, b) ≤ 0`. -/
def sortJS (cmp : LocationBase → LocationBase → ℚ) (l : List LocationBase) : List LocationBase :=
  l.insertionSort (fun a b => cmp a b ≤ 0)

/-- Fallback element for head access on the (unreachable) empty case. -/
def dummyLocation : LocationBase :=
  { x := 0, y := 0, homeStar := false, linked := false
    resources := { economy := 0, industry := 0, science := 0 }, playerId := none }

/-- `getGalaxyCenter(starLocations)`: midpoint of the bounding box, computed
by four consecutive in-place sorts of the caller's array.  The second
component is the state of the array after the call (the in-place sorts are
observable by the caller). -/
def getGalaxyCenter (starLocations : List LocationBase) : (ℚ × ℚ) × List LocationBase :=
  if starLocations.length = 0 then ((0, 0), starLocations)
  else
    let s1 := sortJS (fun a b => b.x - a.x) starLocations
    let maxX := (s1.headD dummyLocation).x
    let s2 := sortJS (fun a b => b.y - a.y) s1
    let maxY := (s2.headD dummyLocation).y
    let s3 := sortJS (fun a b => a.x - b.x) s2
    let minX := (s3.headD dummyLocation).x
    let s4 := sortJS (fun a b => a.y - b.y) s3
    let minY := (s4.headD dummyLocation).y
    (((minX + maxX) / 2, (minY + maxY) / 2), s4)

/-- `getGalaxyCenterOfMass(starLocations)`: arithmetic mean of the
coordinates; `reduce` does not mutate, so the array state after the call is
the input itself. -/
def getGalaxyCenterOfMass (starLocations : List LocationBase) :
    (ℚ × ℚ) × List LocationBase :=
  if starLocations.length = 0 then ((0, 0), starLocations)
  else
    let totalX := starLocations.foldl (fun total s => total + s.x) 0
    let totalY := starLocations.foldl (fun total s => total + s.y) 0
    ((totalX / (starLocations.length : ℚ), totalY / (starLocations.length : ℚ)), starLocations)

/-- Projection of a star to the data the wormhole-symmetry invariant talks
about: its id and its wormhole partner id. -/
def projStar (s : Star) : Nat × Option Nat := (s._id, s.wormHoleToStarId)

/-- Mutual, irreflexive pairing on a list of (id, partner id) pairs: if an
entry points at the id of another entry, that entry points back, and the two
ids differ. -/
def SymPos (l : List (Nat × Option Nat)) : Prop :=
  ∀ a b : Nat × Option Nat, ∀ i j : Nat, l[i]? = some a → l[j]? = some b →
    a.2 = some b.1 → b.2 = some a.1 ∧ a.1 ≠ b.1

/-- Concrete game configuration builder for concrete runs: a topology tag, a
player limit and the seven feature percentages. -/
def mkGame (galaxyType : String) (playerLimit : Nat)
    (warp worm nebula asteroid binary blackhole pulsar : Nat) : Game :=
  { settings :=
      { general := { playerLimit := playerLimit }
        galaxy := { galaxyType := galaxyType }
        specialGalaxy :=
          { resourceDistribution := "standard"
            randomWarpGates := warp
            randomWormHoles := worm
            randomNebulas := nebula
            randomAsteroidFields := asteroid
            randomBinaryStars := binary
            randomBlackHoles := blackhole
            randomPulsars := pulsar } }
    constants := { star := { resources := { maxNaturalResources := 50 } } } }

/-- A concrete star for concrete runs. -/
def mkStar (i : Nat) (home : Bool) : Star :=
  { _id := i
    name := some "S"
    homeStar := home
    warpGate := false
    wormHoleToStarId := none
    isNebula := false
    isAsteroidField := false
    isBinaryStar := false
    isBlackHole := false
    isPulsar := false
    naturalResources := { economy := 10, industry := 3, science := 7 }
    location := (0, 0)
    ownedByPlayerId := none }

/-- A concrete star collection: `count` stars, the first `players` of them
home stars. -/
def testStars (count players : Nat) : List Star :=
  (List.range count).map (fun i => mkStar i (decide (i < players)))

/-- A concrete RNG: the draw sequence is the identity. -/
def testRng : RngState := { seq := fun n => n, idx := 0 }

/-- A trivial service bundle for concrete runs: strategies return no
locations, no star is dead, split-resources mode is off, and the ambient
random service is constant. -/
def testServices : Services :=
  { getRandomStarNames := fun _ => []
    circularMapService := fun _ _ _ => []
    spiralMapService := fun _ _ _ => []
    doughnutMapService := fun _ _ _ => []
    circularBalancedMapService := fun _ _ _ _ => []
    irregularMapService := fun _ _ _ _ _ _ => []
    customMapService := fun _ _ => []
    isDeadStar := fun _ => false
    isSplitResources := fun _ => false
    getRandomNumberBetween := fun _ _ _ => 2 }

/-- Resource payload for concrete strategy locations. -/
def testResources : NaturalResources := { economy := 10, industry := 10, science := 10 }

/-- A concrete strategy output: one home location with one linked satellite
location (the satellite also appears in the output flagged `linked`, as
strategies produce it). -/
def homeWithSatellite : List Location :=
  [ { x := 0, y := 0, homeStar := true, linked := false, resources := testResources
      playerId := none
      linkedLocations :=
        [ { x := 1, y := 0, homeStar := false, linked := true
            resources := testResources, playerId := none } ] },
    { x := 1, y := 0, homeStar := false, linked := true, resources := testResources
      playerId := none, linkedLocations := [] } ]

/-- Services whose circular strategy returns one home star with one linked
satellite, with a one-name pool (too small for the two stars). -/
def poolShortServices : Services :=
  { testServices with
    getRandomStarNames := fun _ => ["Alpha"]
    circularMapService := fun _ _ _ => homeWithSatellite }

/-- Services whose circular strategy returns one home star with one linked
satellite, with a sufficient name pool. -/
def satelliteServices : Services :=
  { testServices with
    getRandomStarNames := fun _ => ["Alpha", "Beta"]
    circularMapService := fun _ _ _ => homeWithSatellite }

/-- Concrete locations for the geometry counterexample. -/
def c6Locations : List LocationBase :=
  [ { x := 0, y := 1, homeStar := false, linked := false
      resources := { economy := 0, industry := 0, science := 0 }, playerId := none },
    { x := 5, y := 0, homeStar := false, linked := false
      resources := { economy := 0, industry := 0, science := 0 }, playerId := none } ]

/-- A star carrying no terrain feature at all: no warp gate, no wormhole
partner, and none of the five boolean feature flags. -/
def Featureless (s : Star) : Prop :=
  s.warpGate = false ∧ s.wormHoleToStarId = none ∧ s.isNebula = false ∧
  s.isAsteroidField = false ∧ s.isBinaryStar = false ∧ s.isBlackHole = false ∧
  s.isPulsar = false

/-- Every home star of the collection carries no terrain feature. -/
def HomeClean (l : List Star) : Prop :=
  ∀ s ∈ l, s.homeStar = true → Featureless s

/-! ### Basic lemmas about the shuffle -/

theorem perm_cons_eraseIdx {α : Type} :
    ∀ (l : List α) (j : Nat) (a : α), l[j]? = some a → (a :: l.eraseIdx j).Perm l
  | [], j, a, h => by simp at h
  | x :: xs, 0, a, h => by
    simp only [List.getElem?_cons_zero, Option.some.injEq] at h
    subst h
    simp
  | x :: xs, j + 1, a, h => by
    simp only [List.getElem?_cons_succ] at h
    have ih := perm_cons_eraseIdx xs j a h
    show (a :: x :: xs.eraseIdx j).Perm (x :: xs)
    exact (List.Perm.swap x a _).trans (ih.cons x)

theorem shuffleGo_perm {α : Type} :
    ∀ (fuel : Nat) (r : RngState) (xs : List α), xs.length ≤ fuel →
      ((shuffleGo fuel r xs).1).Perm xs
  | 0, r, xs, h => by
    have : xs = [] := List.length_eq_zero.mp (Nat.le_zero.mp h)
    subst this
    simp [shuffleGo]
  | fuel + 1, r, [], _ => by simp [shuffleGo]
  | fuel + 1, r, y :: ys, h => by
    have hlt : r.seq r.idx % (y :: ys).length < (y :: ys).length :=
      Nat.mod_lt _ (by simp)
    have hget : (y :: ys)[r.seq r.idx % (y :: ys).length]?
        = some ((y :: ys).get ⟨r.seq r.idx % (y :: ys).length, hlt⟩) := by
      rw [List.getElem?_eq_getElem hlt, List.get_eq_getElem]
    have hlen : ((y :: ys).eraseIdx (r.seq r.idx % (y :: ys).length)).length ≤ fuel := by
      rw [List.length_eraseIdx, if_pos hlt]
      simp only [List.length_cons] at h ⊢
      omega
    have ih := shuffleGo_perm fuel (RngState.next r (y :: ys).length).2
      ((y :: ys).eraseIdx (r.seq r.idx % (y :: ys).length)) hlen
    have hperm := perm_cons_eraseIdx (y :: ys) (r.seq r.idx % (y :: ys).length) _ hget
    simp only [shuffleGo, RngState.next, hget]
    exact (ih.cons _).trans hperm

theorem shuffle_perm {α : Type} (r : RngState) (xs : List α) :
    ((shuffle r xs).1).Perm xs :=
  shuffleGo_perm xs.length r xs le_rfl

theorem shuffle_length {α : Type} (r : RngState) (xs : List α) :
    (shuffle r xs).1.length = xs.length :=
  (shuffle_perm r xs).length_eq

/-! ### Lemmas about positional updates -/

theorem length_modifyStar : ∀ (l : List Star) (i : Nat) (f : Star → Star),
    (modifyStar l i f).length = l.length
  | [], _, _ => rfl
  | _ :: _, 0, _ => by simp [modifyStar]
  | s :: rest, i + 1, f => by simp [modifyStar, length_modifyStar rest i f]

theorem getElem?_modifyStar_self : ∀ (l : List Star) (i : Nat) (f : Star → Star),
    (modifyStar l i f)[i]? = l[i]?.map f
  | [], i, f => by simp [modifyStar]
  | s :: rest, 0, f => by simp [modifyStar]
  | s :: rest, i + 1, f => by simp [modifyStar, getElem?_modifyStar_self rest i f]

theorem getElem?_modifyStar_ne : ∀ (l : List Star) (i j : Nat) (f : Star → Star), j ≠ i →
    (modifyStar l i f)[j]? = l[j]?
  | [], _, _, _, _ => by simp [modifyStar]
  | s :: rest, 0, j, f, h => by
    cases j with
    | zero => exact absurd rfl h
    | succ j => simp [modifyStar]
  | s :: rest, i + 1, 0, f, h => by simp [modifyStar]
  | s :: rest, i + 1, j + 1, f, h => by
    simp [modifyStar, getElem?_modifyStar_ne rest i j f (by omega)]

theorem map_modifyStar {β : Type} (g : Star → β) (f : Star → Star)
    (hg : ∀ s, g (f s) = g s) :
    ∀ (l : List Star) (i : Nat), (modifyStar l i f).map g = l.map g
  | [], _ => rfl
  | s :: rest, 0 => by simp [modifyStar, hg]
  | s :: rest, i + 1 => by simp [modifyStar, map_modifyStar g f hg rest i]

theorem countP_modifyStar (flag : Star → Bool) (f : Star → Star) :
    ∀ (l : List Star) (i : Nat) (s : Star), l[i]? = some s → flag s = false →
      flag (f s) = true →
      (modifyStar l i f).countP flag = l.countP flag + 1
  | [], i, s, h, _, _ => by simp at h
  | a :: rest, 0, s, h, h1, h2 => by
    simp only [List.getElem?_cons_zero, Option.some.injEq] at h
    subst h
    simp [modifyStar, List.countP_cons, h1, h2]
  | a :: rest, i + 1, s, h, h1, h2 => by
    simp only [List.getElem?_cons_succ] at h
    simp only [modifyStar, List.countP_cons,
      countP_modifyStar flag f rest i s h h1 h2]
    omega

/-! ### Lemmas about the marking loops -/

theorem length_markStars (f : Star → Star) :
    ∀ (ws : List (Nat × Star)) (stars : List Star),
      (markStars f ws stars).length = stars.length
  | [], _ => rfl
  | p :: ws, stars => by
    rw [show markStars f (p :: ws) stars = markStars f ws (modifyStar stars p.1 f) from rfl,
      length_markStars f ws, length_modifyStar]

theorem getElem?_markStars (f : Star → Star) :
    ∀ (ws : List (Nat × Star)) (stars : List Star) (j : Nat),
      (ws.map Prod.fst).Nodup →
      (markStars f ws stars)[j]? =
        if j ∈ ws.map Prod.fst then stars[j]?.map f else stars[j]?
  | [], stars, j, _ => by simp [markStars]
  | p :: ws, stars, j, hnd => by
    rw [show markStars f (p :: ws) stars = markStars f ws (modifyStar stars p.1 f) from rfl]
    simp only [List.map_cons, List.nodup_cons] at hnd
    simp only [List.map_cons, List.mem_cons]
    rw [getElem?_markStars f ws _ j hnd.2]
    by_cases hj : j ∈ ws.map Prod.fst
    · have hne : j ≠ p.1 := fun h => hnd.1 (by rw [← h]; exact hj)
      rw [if_pos hj, if_pos (Or.inr hj), getElem?_modifyStar_ne _ _ _ _ hne]
    · by_cases hjp : j = p.1
      · subst hjp
        rw [if_neg hj, if_pos (Or.inl rfl), getElem?_modifyStar_self]
      · rw [if_neg hj, if_neg (by simp [hjp, hj]), getElem?_modifyStar_ne _ _ _ _ hjp]

theorem map_markStars {β : Type} (g : Star → β) (f : Star → Star)
    (hg : ∀ s, g (f s) = g s) :
    ∀ (ws : List (Nat × Star)) (stars : List Star),
      (markStars f ws stars).map g = stars.map g
  | [], _ => rfl
  | p :: ws, stars => by
    rw [show markStars f (p :: ws) stars = markStars f ws (modifyStar stars p.1 f) from rfl,
      map_markStars g f hg ws, map_modifyStar g f hg]

theorem countP_markStars (flag : Star → Bool) (f : Star → Star)
    (hset : ∀ s, flag (f s) = true) :
    ∀ (ws : List (Nat × Star)) (stars : List Star),
      (ws.map Prod.fst).Nodup →
      (∀ p ∈ ws, ∃ s, stars[p.1]? = some s ∧ flag s = false) →
      (markStars f ws stars).countP flag = ws.length + stars.countP flag
  | [], stars, _, _ => by simp [markStars]
  | p :: ws, stars, hnd, hws => by
    rw [show markStars f (p :: ws) stars = markStars f ws (modifyStar stars p.1 f) from rfl]
    simp only [List.map_cons, List.nodup_cons] at hnd
    obtain ⟨s, hs, hflag⟩ := hws p (List.mem_cons_self p ws)
    have hws' : ∀ q ∈ ws, ∃ t, (modifyStar stars p.1 f)[q.1]? = some t ∧ flag t = false := by
      intro q hq
      obtain ⟨t, ht, htf⟩ := hws q (List.mem_cons.mpr (Or.inr hq))
      refine ⟨t, ?_, htf⟩
      rw [getElem?_modifyStar_ne _ _ _ _ (fun h => hnd.1 (by rw [← h]; exact List.mem_map_of_mem Prod.fst hq))]
      exact ht
    rw [countP_markStars flag f hset ws _ hnd.2 hws',
      countP_modifyStar flag f stars p.1 s hs hflag (hset s)]
    simp only [List.length_cons]
    omega

theorem length_markStarsIdx (f : Nat → Star → Star) (adv : Nat → Nat) :
    ∀ (ws : List (Nat × Star)) (stars : List Star) (k0 : Nat),
      (markStarsIdx f adv ws stars k0).1.length = stars.length
  | [], _, _ => rfl
  | p :: ws, stars, k0 => by
    rw [show markStarsIdx f adv (p :: ws) stars k0
        = markStarsIdx f adv ws (modifyStar stars p.1 (f k0)) (adv k0) from rfl,
      length_markStarsIdx f adv ws, length_modifyStar]

theorem getElem?_markStarsIdx_notMem (f : Nat → Star → Star) (adv : Nat → Nat) :
    ∀ (ws : List (Nat × Star)) (stars : List Star) (k0 : Nat) (j : Nat),
      j ∉ ws.map Prod.fst →
      (markStarsIdx f adv ws stars k0).1[j]? = stars[j]?
  | [], _, _, _, _ => rfl
  | p :: ws, stars, k0, j, hj => by
    rw [show markStarsIdx f adv (p :: ws) stars k0
        = markStarsIdx f adv ws (modifyStar stars p.1 (f k0)) (adv k0) from rfl]
    simp only [List.map_cons, List.mem_cons, not_or] at hj
    rw [getElem?_markStarsIdx_notMem f adv ws _ _ j (by simpa using hj.2),
      getElem?_modifyStar_ne _ _ _ _ hj.1]

theorem getElem?_markStarsIdx_mem (f : Nat → Star → Star) (adv : Nat → Nat) :
    ∀ (ws : List (Nat × Star)) (stars : List Star) (k0 : Nat) (j : Nat),
      (ws.map Prod.fst).Nodup →
      j ∈ ws.map Prod.fst →
      ∃ k, (markStarsIdx f adv ws stars k0).1[j]? = stars[j]?.map (f k)
  | [], _, _, _, _, hj => by simp at hj
  | p :: ws, stars, k0, j, hnd, hj => by
    rw [show markStarsIdx f adv (p :: ws) stars k0
        = markStarsIdx f adv ws (modifyStar stars p.1 (f k0)) (adv k0) from rfl]
    simp only [List.map_cons, List.nodup_cons] at hnd
    rcases List.mem_cons.mp hj with hjp | hj'
    · subst hjp
      refine ⟨k0, ?_⟩
      rw [getElem?_markStarsIdx_notMem f adv ws _ _ _ hnd.1, getElem?_modifyStar_self]
    · obtain ⟨k, hk⟩ := getElem?_markStarsIdx_mem f adv ws
        (modifyStar stars p.1 (f k0)) (adv k0) j hnd.2 hj'
      refine ⟨k, ?_⟩
      rw [hk, getElem?_modifyStar_ne _ _ _ _ (fun h => hnd.1 (by rw [← h]; exact hj'))]

theorem map_markStarsIdx {β : Type} (g : Star → β) (f : Nat → Star → Star) (adv : Nat → Nat)
    (hg : ∀ k s, g (f k s) = g s) :
    ∀ (ws : List (Nat × Star)) (stars : List Star) (k0 : Nat),
      (markStarsIdx f adv ws stars k0).1.map g = stars.map g
  | [], _, _ => rfl
  | p :: ws, stars, k0 => by
    rw [show markStarsIdx f adv (p :: ws) stars k0
        = markStarsIdx f adv ws (modifyStar stars p.1 (f k0)) (adv k0) from rfl,
      map_markStarsIdx g f adv hg ws, map_modifyStar g (f k0) (hg k0)]

theorem countP_markStarsIdx (flag : Star → Bool) (f : Nat → Star → Star) (adv : Nat → Nat)
    (hset : ∀ k s, flag (f k s) = true) :
    ∀ (ws : List (Nat × Star)) (stars : List Star) (k0 : Nat),
      (ws.map Prod.fst).Nodup →
      (∀ p ∈ ws, ∃ s, stars[p.1]? = some s ∧ flag s = false) →
      (markStarsIdx f adv ws stars k0).1.countP flag = ws.length + stars.countP flag
  | [], stars, _, _, _ => by simp [markStarsIdx]
  | p :: ws, stars, k0, hnd, hws => by
    rw [show markStarsIdx f adv (p :: ws) stars k0
        = markStarsIdx f adv ws (modifyStar stars p.1 (f k0)) (adv k0) from rfl]
    simp only [List.map_cons, List.nodup_cons] at hnd
    obtain ⟨s, hs, hflag⟩ := hws p (List.mem_cons_self p ws)
    have hws' : ∀ q ∈ ws, ∃ t, (modifyStar stars p.1 (f k0))[q.1]? = some t ∧ flag t = false := by
      intro q hq
      obtain ⟨t, ht, htf⟩ := hws q (List.mem_cons.mpr (Or.inr hq))
      refine ⟨t, ?_, htf⟩
      rw [getElem?_modifyStar_ne _ _ _ _ (fun h => hnd.1 (by rw [← h]; exact List.mem_map_of_mem Prod.fst hq))]
      exact ht
    rw [countP_markStarsIdx flag f adv hset ws _ _ hnd.2 hws',
      countP_modifyStar flag (f k0) stars p.1 s hs hflag (hset k0 s)]
    simp only [List.length_cons]
    omega

/-! ### Winner-selection plumbing: filter of `enum`, shuffle, take -/

theorem mem_enum_getElem? {α : Type} {stars : List α} {p : Nat × α}
    (h : p ∈ stars.enum) : stars[p.1]? = some p.2 := by
  obtain ⟨n, hn⟩ := List.mem_iff_getElem?.mp h
  rw [List.getElem?_enum] at hn
  obtain ⟨a, ha, hpa⟩ := Option.map_eq_some'.mp hn
  cases hpa
  exact ha

theorem winners_fst_nodup (pred : Nat × Star → Bool) (rand : RngState)
    (stars : List Star) (n : Nat) :
    (((shuffle rand (stars.enum.filter pred)).1.take n).map Prod.fst).Nodup := by
  have hbase : ((stars.enum.filter pred).map Prod.fst).Nodup := by
    have hsub : List.Sublist ((stars.enum.filter pred).map Prod.fst)
        (stars.enum.map Prod.fst) := (List.filter_sublist _).map Prod.fst
    rw [List.enum_map_fst] at hsub
    exact hsub.nodup (List.nodup_range _)
  have hperm : ((shuffle rand (stars.enum.filter pred)).1.map Prod.fst).Perm
      ((stars.enum.filter pred).map Prod.fst) :=
    (shuffle_perm _ _).map Prod.fst
  have hshuf : ((shuffle rand (stars.enum.filter pred)).1.map Prod.fst).Nodup :=
    hperm.nodup_iff.mpr hbase
  have htake : List.Sublist (((shuffle rand (stars.enum.filter pred)).1.take n).map Prod.fst)
      ((shuffle rand (stars.enum.filter pred)).1.map Prod.fst) :=
    (List.take_sublist _ _).map Prod.fst
  exact htake.nodup hshuf

theorem winners_mem (pred : Nat × Star → Bool) (rand : RngState)
    (stars : List Star) (n : Nat) {p : Nat × Star}
    (h : p ∈ (shuffle rand (stars.enum.filter pred)).1.take n) :
    stars[p.1]? = some p.2 ∧ pred p = true := by
  have h1 : p ∈ (shuffle rand (stars.enum.filter pred)).1 := List.mem_of_mem_take h
  have h2 : p ∈ stars.enum.filter pred := ((shuffle_perm _ _).mem_iff).mp h1
  have h3 := List.mem_filter.mp h2
  exact ⟨mem_enum_getElem? h3.1, h3.2⟩

theorem winners_length (pred : Nat × Star → Bool) (rand : RngState)
    (stars : List Star) (n : Nat)
    (h : n ≤ (stars.enum.filter pred).length) :
    ((shuffle rand (stars.enum.filter pred)).1.take n).length = n := by
  rw [List.length_take, shuffle_length]
  omega

theorem enum_filter_length (q : Star → Bool) (stars : List Star) :
    (stars.enum.filter (fun p => q p.2)).length = stars.countP q := by
  rw [← List.countP_eq_length_filter]
  have : stars.countP q = (stars.enum.map Prod.snd).countP q := by
    rw [List.enum_map_snd]
  rw [this, List.countP_map]
  rfl

/-! ### Lemmas about the wormhole pairing loop -/

theorem wormHoleLoop_isSome :
    ∀ (count : Nat) (ws : List (Nat × Star)) (stars : List Star),
      (wormHoleLoop count ws stars).isSome = true ↔ 2 * count ≤ ws.length
  | 0, ws, stars => by simp [wormHoleLoop]
  | count + 1, [], stars => by simp [wormHoleLoop]
  | count + 1, [p], stars => by
    simp [wormHoleLoop]
    omega
  | count + 1, a :: b :: rest, stars => by
    simp only [wormHoleLoop, List.length_cons]
    rw [wormHoleLoop_isSome count rest]
    omega

theorem wormHoleLoop_length :
    ∀ (count : Nat) (ws : List (Nat × Star)) (stars res : List Star),
      wormHoleLoop count ws stars = some res → res.length = stars.length
  | 0, ws, stars, res, h => by
    simp only [wormHoleLoop, Option.some.injEq] at h
    rw [← h]
  | count + 1, [], stars, res, h => by simp [wormHoleLoop] at h
  | count + 1, [p], stars, res, h => by simp [wormHoleLoop] at h
  | count + 1, a :: b :: rest, stars, res, h => by
    simp only [wormHoleLoop] at h
    rw [wormHoleLoop_length count rest _ res h, length_modifyStar, length_modifyStar]

theorem map_wormHoleLoop {β : Type} (g : Star → β)
    (hg : ∀ s t, g { s with wormHoleToStarId := some t } = g s) :
    ∀ (count : Nat) (ws : List (Nat × Star)) (stars res : List Star),
      wormHoleLoop count ws stars = some res → res.map g = stars.map g
  | 0, ws, stars, res, h => by
    simp only [wormHoleLoop, Option.some.injEq] at h
    rw [← h]
  | count + 1, [], stars, res, h => by simp [wormHoleLoop] at h
  | count + 1, [p], stars, res, h => by simp [wormHoleLoop] at h
  | count + 1, a :: b :: rest, stars, res, h => by
    simp only [wormHoleLoop] at h
    rw [map_wormHoleLoop g hg count rest _ res h,
      map_modifyStar g _ (fun s => hg s a.2._id),
      map_modifyStar g _ (fun s => hg s b.2._id)]

theorem getElem?_wormHoleLoop_notMem :
    ∀ (count : Nat) (ws : List (Nat × Star)) (stars res : List Star),
      wormHoleLoop count ws stars = some res →
      ∀ j, j ∉ ws.map Prod.fst → res[j]? = stars[j]?
  | 0, ws, stars, res, h, j, _ => by
    simp only [wormHoleLoop, Option.some.injEq] at h
    rw [← h]
  | count + 1, [], stars, res, h, j, _ => by simp [wormHoleLoop] at h
  | count + 1, [p], stars, res, h, j, _ => by simp [wormHoleLoop] at h
  | count + 1, a :: b :: rest, stars, res, h, j, hj => by
    simp only [wormHoleLoop] at h
    simp only [List.map_cons, List.mem_cons, not_or] at hj
    rw [getElem?_wormHoleLoop_notMem count rest _ res h j (by simpa using hj.2.2),
      getElem?_modifyStar_ne _ _ _ _ hj.2.1, getElem?_modifyStar_ne _ _ _ _ hj.1]

theorem getElem?_wormHoleLoop_mem :
    ∀ (count : Nat) (ws : List (Nat × Star)) (stars res : List Star),
      wormHoleLoop count ws stars = some res →
      ws.length = 2 * count →
      (ws.map Prod.fst).Nodup →
      (∀ p ∈ ws, p.1 < stars.length) →
      ∀ j, j ∈ ws.map Prod.fst →
        ∃ t s, stars[j]? = some s ∧
          res[j]? = some { s with wormHoleToStarId := some t }
  | 0, ws, stars, res, h, hlen, _, _, j, hj => by
    have : ws = [] := List.length_eq_zero.mp (by omega)
    subst this
    simp at hj
  | count + 1, [], stars, res, h, hlen, _, _, j, hj => by simp [wormHoleLoop] at h
  | count + 1, [p], stars, res, h, hlen, _, _, j, hj => by simp [wormHoleLoop] at h
  | count + 1, a :: b :: rest, stars, res, h, hlen, hnd, hlt, j, hj => by
    simp only [wormHoleLoop] at h
    simp only [List.length_cons] at hlen
    simp only [List.map_cons, List.nodup_cons, List.mem_cons, not_or] at hnd
    obtain ⟨⟨hab, hanr⟩, hbnr, hndr⟩ := hnd
    have haLt : a.1 < stars.length := hlt a (List.mem_cons_self _ _)
    have hbLt : b.1 < stars.length := hlt b (List.mem_cons.mpr (Or.inr (List.mem_cons_self _ _)))
    have hlenB : ∀ p ∈ rest, p.1 < (modifyStar (modifyStar stars a.1
        (fun s => { s with wormHoleToStarId := some b.2._id })) b.1
        (fun s => { s with wormHoleToStarId := some a.2._id })).length := by
      intro p hp
      rw [length_modifyStar, length_modifyStar]
      exact hlt p (List.mem_cons.mpr (Or.inr (List.mem_cons.mpr (Or.inr hp))))
    simp only [List.map_cons, List.mem_cons] at hj
    rcases hj with hja | hjb | hjr
    · subst hja
      obtain ⟨s, hs⟩ : ∃ s, stars[a.1]? = some s :=
        ⟨_, List.getElem?_eq_getElem haLt⟩
      refine ⟨b.2._id, s, hs, ?_⟩
      rw [getElem?_wormHoleLoop_notMem count rest _ res h a.1 hanr,
        getElem?_modifyStar_ne _ _ _ _ hab, getElem?_modifyStar_self, hs]
      rfl
    · subst hjb
      obtain ⟨s, hs⟩ : ∃ s, stars[b.1]? = some s :=
        ⟨_, List.getElem?_eq_getElem hbLt⟩
      refine ⟨a.2._id, s, hs, ?_⟩
      rw [getElem?_wormHoleLoop_notMem count rest _ res h b.1 hbnr,
        getElem?_modifyStar_self,
        getElem?_modifyStar_ne _ _ _ _ (fun hh => hab hh.symm), hs]
      rfl
    · obtain ⟨t, s, hsB, hres⟩ := getElem?_wormHoleLoop_mem count rest _ res h
        (by omega) hndr hlenB j hjr
      have hjna : j ≠ a.1 := fun hh => hanr (hh ▸ hjr)
      have hjnb : j ≠ b.1 := fun hh => hbnr (hh ▸ hjr)
      rw [getElem?_modifyStar_ne _ _ _ _ hjnb, getElem?_modifyStar_ne _ _ _ _ hjna] at hsB
      exact ⟨t, s, hsB, hres⟩

theorem countP_wormHoleLoop :
    ∀ (count : Nat) (ws : List (Nat × Star)) (stars res : List Star),
      wormHoleLoop count ws stars = some res →
      ws.length = 2 * count →
      (ws.map Prod.fst).Nodup →
      (∀ p ∈ ws, ∃ s, stars[p.1]? = some s ∧ s.wormHoleToStarId = none) →
      res.countP (fun s => s.wormHoleToStarId.isSome)
        = ws.length + stars.countP (fun s => s.wormHoleToStarId.isSome)
  | 0, ws, stars, res, h, hlen, _, _ => by
    simp only [wormHoleLoop, Option.some.injEq] at h
    have : ws = [] := List.length_eq_zero.mp (by omega)
    subst this
    rw [← h]
    simp
  | count + 1, [], stars, res, h, hlen, _, _ => by simp [wormHoleLoop] at h
  | count + 1, [p], stars, res, h, hlen, _, _ => by simp [wormHoleLoop] at h
  | count + 1, a :: b :: rest, stars, res, h, hlen, hnd, hws => by
    simp only [wormHoleLoop] at h
    simp only [List.length_cons] at hlen
    simp only [List.map_cons, List.nodup_cons, List.mem_cons, not_or] at hnd
    obtain ⟨⟨hab, hanr⟩, hbnr, hndr⟩ := hnd
    obtain ⟨sA, hsA, hwA⟩ := hws a (List.mem_cons_self _ _)
    obtain ⟨sB, hsB, hwB⟩ := hws b (List.mem_cons.mpr (Or.inr (List.mem_cons_self _ _)))
    have hcA : (modifyStar stars a.1
        (fun s => { s with wormHoleToStarId := some b.2._id })).countP
          (fun s => s.wormHoleToStarId.isSome)
        = stars.countP (fun s => s.wormHoleToStarId.isSome) + 1 :=
      countP_modifyStar _ _ stars a.1 sA hsA (by simp [hwA]) (by simp)
    have hsB' : (modifyStar stars a.1
        (fun s => { s with wormHoleToStarId := some b.2._id }))[b.1]? = some sB := by
      rw [getElem?_modifyStar_ne _ _ _ _ (fun hh => hab hh.symm)]
      exact hsB
    have hcB := countP_modifyStar (fun s => s.wormHoleToStarId.isSome)
      (fun s => { s with wormHoleToStarId := some a.2._id })
      (modifyStar stars a.1 (fun s => { s with wormHoleToStarId := some b.2._id }))
      b.1 sB hsB' (by simp [hwB]) (by simp)
    have hws' : ∀ p ∈ rest, ∃ s,
        (modifyStar (modifyStar stars a.1
          (fun s => { s with wormHoleToStarId := some b.2._id })) b.1
          (fun s => { s with wormHoleToStarId := some a.2._id }))[p.1]? = some s ∧
        s.wormHoleToStarId = none := by
      intro p hp
      obtain ⟨s, hs, hw⟩ := hws p (List.mem_cons.mpr (Or.inr (List.mem_cons.mpr (Or.inr hp))))
      refine ⟨s, ?_, hw⟩
      rw [getElem?_modifyStar_ne _ _ _ _
          (fun hh => hbnr (by rw [← hh]; exact List.mem_map_of_mem Prod.fst hp)),
        getElem?_modifyStar_ne _ _ _ _
          (fun hh => hanr (by rw [← hh]; exact List.mem_map_of_mem Prod.fst hp))]
      exact hs
    rw [countP_wormHoleLoop count rest _ res h (by omega) hndr hws', hcB, hcA]
    simp only [List.length_cons]
    omega

/-! ### Wormhole symmetry -/

theorem modifyStar_eq_set : ∀ (l : List Star) (i : Nat) (f : Star → Star) (s : Star),
    l[i]? = some s → modifyStar l i f = l.set i (f s)
  | [], i, f, s, h => by simp at h
  | a :: rest, 0, f, s, h => by
    simp only [List.getElem?_cons_zero, Option.some.injEq] at h
    subst h
    rfl
  | a :: rest, i + 1, f, s, h => by
    simp only [List.getElem?_cons_succ] at h
    simp [modifyStar, modifyStar_eq_set rest i f s h]

theorem getElem?_fst_inj {α β : Type} {l : List (α × β)} (hnd : (l.map Prod.fst).Nodup)
    {i j : Nat} {p q : α × β} (hi : l[i]? = some p) (hj : l[j]? = some q)
    (hpq : p.1 = q.1) : i = j := by
  have hi' : (l.map Prod.fst)[i]? = some p.1 := by rw [List.getElem?_map, hi]; rfl
  have hj' : (l.map Prod.fst)[j]? = some q.1 := by rw [List.getElem?_map, hj]; rfl
  have hlt : i < (l.map Prod.fst).length := by
    rw [List.length_map]
    exact (List.getElem?_eq_some_iff.mp hi).1
  exact List.getElem?_inj hlt hnd (by rw [hi', hj', hpq])

theorem symPos_set_pair (l : List (Nat × Option Nat)) (ia ib A B : Nat)
    (ha : l[ia]? = some (A, none)) (hb : l[ib]? = some (B, none)) (hne : ia ≠ ib)
    (hnd : (l.map Prod.fst).Nodup) (hsym : SymPos l) :
    SymPos ((l.set ia (A, some B)).set ib (B, some A)) := by
  have hia : ia < l.length := (List.getElem?_eq_some_iff.mp ha).1
  have hib : ib < l.length := (List.getElem?_eq_some_iff.mp hb).1
  have hAB : A ≠ B := by
    intro hEq
    exact hne (getElem?_fst_inj hnd ha hb (by simp [hEq]))
  have hl' : ∀ k, ((l.set ia (A, some B)).set ib (B, some A))[k]? =
      if k = ib then some (B, some A)
      else if k = ia then some (A, some B) else l[k]? := by
    intro k
    by_cases hkb : k = ib
    · subst hkb
      simp only [if_pos rfl]
      exact List.getElem?_set_self (by simpa using hib)
    · simp only [if_neg hkb]
      rw [List.getElem?_set_ne (fun hh => hkb hh.symm)]
      by_cases hka : k = ia
      · subst hka
        simp only [if_pos rfl]
        exact List.getElem?_set_self hia
      · simp only [if_neg hka]
        exact List.getElem?_set_ne (fun hh => hka hh.symm)
  intro a b i j hai hbj hab
  rw [hl' i] at hai
  rw [hl' j] at hbj
  by_cases hiIb : i = ib
  · rw [if_pos hiIb] at hai
    injection hai with hai
    subst hai
    have hbA : A = b.1 := Option.some_inj.mp hab
    by_cases hjIb : j = ib
    · rw [if_pos hjIb] at hbj
      injection hbj with hbj
      subst hbj
      exact absurd hbA hAB
    · rw [if_neg hjIb] at hbj
      by_cases hjIa : j = ia
      · rw [if_pos hjIa] at hbj
        injection hbj with hbj
        subst hbj
        exact ⟨rfl, fun hh => hAB hh.symm⟩
      · rw [if_neg hjIa] at hbj
        exact absurd (getElem?_fst_inj hnd hbj ha hbA.symm) hjIa
  · rw [if_neg hiIb] at hai
    by_cases hiIa : i = ia
    · rw [if_pos hiIa] at hai
      injection hai with hai
      subst hai
      have hbB : B = b.1 := Option.some_inj.mp hab
      by_cases hjIb : j = ib
      · rw [if_pos hjIb] at hbj
        injection hbj with hbj
        subst hbj
        exact ⟨rfl, hAB⟩
      · rw [if_neg hjIb] at hbj
        by_cases hjIa : j = ia
        · rw [if_pos hjIa] at hbj
          injection hbj with hbj
          subst hbj
          exact absurd hbB.symm hAB
        · rw [if_neg hjIa] at hbj
          exact absurd (getElem?_fst_inj hnd hbj hb hbB.symm) hjIb
    · rw [if_neg hiIa] at hai
      by_cases hjIb : j = ib
      · rw [if_pos hjIb] at hbj
        injection hbj with hbj
        subst hbj
        have := hsym a (B, none) i ib hai hb (by simpa using hab)
        simp at this
      · rw [if_neg hjIb] at hbj
        by_cases hjIa : j = ia
        · rw [if_pos hjIa] at hbj
          injection hbj with hbj
          subst hbj
          have := hsym a (A, none) i ia hai ha (by simpa using hab)
          simp at this
        · rw [if_neg hjIa] at hbj
          exact hsym a b i j hai hbj hab

theorem wormHoleLoop_symPos :
    ∀ (count : Nat) (ws : List (Nat × Star)) (stars res : List Star),
      wormHoleLoop count ws stars = some res →
      (ws.map Prod.fst).Nodup →
      (∀ p ∈ ws, stars[p.1]? = some p.2) →
      (∀ p ∈ ws, p.2.wormHoleToStarId = none) →
      (stars.map Star._id).Nodup →
      SymPos (stars.map projStar) →
      SymPos (res.map projStar)
  | 0, ws, stars, res, h, _, _, _, _, hsym => by
    simp only [wormHoleLoop, Option.some.injEq] at h
    rw [← h]
    exact hsym
  | count + 1, [], stars, res, h, _, _, _, _, _ => by simp [wormHoleLoop] at h
  | count + 1, [p], stars, res, h, _, _, _, _, _ => by simp [wormHoleLoop] at h
  | count + 1, a :: b :: rest, stars, res, h, hnd, hmem, hwnone, hids, hsym => by
    simp only [wormHoleLoop] at h
    simp only [List.map_cons, List.nodup_cons, List.mem_cons, not_or] at hnd
    obtain ⟨⟨hab, hanr⟩, hbnr, hndr⟩ := hnd
    have hsa : stars[a.1]? = some a.2 := hmem a (List.mem_cons_self _ _)
    have hsb : stars[b.1]? = some b.2 :=
      hmem b (List.mem_cons.mpr (Or.inr (List.mem_cons_self _ _)))
    have hwa : a.2.wormHoleToStarId = none := hwnone a (List.mem_cons_self _ _)
    have hwb : b.2.wormHoleToStarId = none :=
      hwnone b (List.mem_cons.mpr (Or.inr (List.mem_cons_self _ _)))
    have hstarsA : modifyStar stars a.1
        (fun s => { s with wormHoleToStarId := some b.2._id })
        = stars.set a.1 { a.2 with wormHoleToStarId := some b.2._id } :=
      modifyStar_eq_set stars a.1 _ a.2 hsa
    have hsbA : (stars.set a.1 { a.2 with wormHoleToStarId := some b.2._id })[b.1]?
        = some b.2 := by
      rw [List.getElem?_set_ne hab]
      exact hsb
    have hstarsB : modifyStar (stars.set a.1 { a.2 with wormHoleToStarId := some b.2._id })
        b.1 (fun s => { s with wormHoleToStarId := some a.2._id })
        = (stars.set a.1 { a.2 with wormHoleToStarId := some b.2._id }).set b.1
            { b.2 with wormHoleToStarId := some a.2._id } :=
      modifyStar_eq_set _ b.1 _ b.2 hsbA
    have hprojA : (stars.map projStar)[a.1]? = some (a.2._id, none) := by
      rw [List.getElem?_map, hsa]
      simp [projStar, hwa]
    have hprojB : (stars.map projStar)[b.1]? = some (b.2._id, none) := by
      rw [List.getElem?_map, hsb]
      simp [projStar, hwb]
    have hfst : (stars.map projStar).map Prod.fst = stars.map Star._id := by
      rw [List.map_map]
      rfl
    have hmem' : ∀ p ∈ rest,
        (modifyStar (modifyStar stars a.1
          (fun s => { s with wormHoleToStarId := some b.2._id })) b.1
          (fun s => { s with wormHoleToStarId := some a.2._id }))[p.1]? = some p.2 := by
      intro p hp
      rw [getElem?_modifyStar_ne _ _ _ _
          (fun hh => hbnr (by rw [← hh]; exact List.mem_map_of_mem Prod.fst hp)),
        getElem?_modifyStar_ne _ _ _ _
          (fun hh => hanr (by rw [← hh]; exact List.mem_map_of_mem Prod.fst hp))]
      exact hmem p (List.mem_cons.mpr (Or.inr (List.mem_cons.mpr (Or.inr hp))))
    have hwnone' : ∀ p ∈ rest, p.2.wormHoleToStarId = none := by
      intro p hp
      exact hwnone p (List.mem_cons.mpr (Or.inr (List.mem_cons.mpr (Or.inr hp))))
    have hids' : ((modifyStar (modifyStar stars a.1
        (fun s => { s with wormHoleToStarId := some b.2._id })) b.1
        (fun s => { s with wormHoleToStarId := some a.2._id })).map Star._id).Nodup := by
      rw [map_modifyStar Star._id
          (fun s => { s with wormHoleToStarId := some a.2._id }) (fun s => rfl),
        map_modifyStar Star._id
          (fun s => { s with wormHoleToStarId := some b.2._id }) (fun s => rfl)]
      exact hids
    have hsym' : SymPos ((modifyStar (modifyStar stars a.1
        (fun s => { s with wormHoleToStarId := some b.2._id })) b.1
        (fun s => { s with wormHoleToStarId := some a.2._id })).map projStar) := by
      rw [hstarsA, hstarsB, List.map_set, List.map_set]
      exact symPos_set_pair (stars.map projStar) a.1 b.1 a.2._id b.2._id
        hprojA hprojB hab (by rw [hfst]; exact hids) hsym
    exact wormHoleLoop_symPos count rest _ res h hndr hmem' hwnone' hids' hsym'

/-! ### Eligible-pool size -/

theorem countP_not_homeStar (stars : List Star) :
    stars.countP (fun s => !s.homeStar) = stars.length - stars.countP (fun s => s.homeStar) := by
  induction stars with
  | nil => rfl
  | cons a l ih =>
    have hle := List.countP_le_length (p := fun s => s.homeStar) (l := l)
    simp only [List.countP_cons, List.length_cons, ih]
    cases h : a.homeStar <;> simp [h] <;> omega

theorem enum_filter_length_eq (pred : Nat × Star → Bool) (stars : List Star)
    (hpred : ∀ p : Nat × Star, p.2 ∈ stars → pred p = !p.2.homeStar) :
    (stars.enum.filter pred).length
      = stars.length - stars.countP (fun s => s.homeStar) := by
  rw [← List.countP_eq_length_filter]
  have h1 : stars.enum.countP pred = stars.enum.countP (fun p => !p.2.homeStar) := by
    apply List.countP_congr
    intro p hp
    rw [hpred p (List.getElem?_mem (mem_enum_getElem? hp))]
  rw [h1]
  have h2 : stars.enum.countP (fun p => !p.2.homeStar)
      = (stars.enum.map Prod.snd).countP (fun s => !s.homeStar) := by
    rw [List.countP_map]
    rfl
  rw [h2, List.enum_map_snd, countP_not_homeStar]

/-! ### The generic count of a single-star feature pass -/

theorem countP_select_pass (flag : Star → Bool) (f : Star → Star) (pred : Nat × Star → Bool)
    (rand : RngState) (stars : List Star) (n : Nat)
    (hset : ∀ s, flag (f s) = true)
    (hinit : ∀ s ∈ stars, flag s = false)
    (hn : n ≤ (stars.enum.filter pred).length) :
    (markStars f ((shuffle rand (stars.enum.filter pred)).1.take n) stars).countP flag
      = n := by
  rw [countP_markStars flag f hset _ stars (winners_fst_nodup pred rand stars n) ?hws]
  · rw [winners_length pred rand stars n hn]
    have hz : stars.countP flag = 0 :=
      List.countP_eq_zero.mpr (by intro s hs; simp [hinit s hs])
    omega
  case hws =>
    intro p hp
    obtain ⟨hg, _⟩ := winners_mem pred rand stars n hp
    exact ⟨p.2, hg, hinit p.2 (List.getElem?_mem hg)⟩

theorem countP_select_pass_idx (flag : Star → Bool) (f : Nat → Star → Star)
    (adv : Nat → Nat) (pred : Nat × Star → Bool)
    (rand : RngState) (stars : List Star) (n k0 : Nat)
    (hset : ∀ k s, flag (f k s) = true)
    (hinit : ∀ s ∈ stars, flag s = false)
    (hn : n ≤ (stars.enum.filter pred).length) :
    (markStarsIdx f adv ((shuffle rand (stars.enum.filter pred)).1.take n) stars k0).1.countP
      flag = n := by
  rw [countP_markStarsIdx flag f adv hset _ stars k0 (winners_fst_nodup pred rand stars n) ?hws]
  · rw [winners_length pred rand stars n hn]
    have hz : stars.countP flag = 0 :=
      List.countP_eq_zero.mpr (by intro s hs; simp [hinit s hs])
    omega
  case hws =>
    intro p hp
    obtain ⟨hg, _⟩ := winners_mem pred rand stars n hp
    exact ⟨p.2, hg, hinit p.2 (List.getElem?_mem hg)⟩

/-! ### Home stars are never touched by a pass -/

theorem homeClean_markStars_pass (f : Star → Star) (pred : Nat × Star → Bool)
    (rand : RngState) (stars : List Star) (n : Nat)
    (hfhome : ∀ s, (f s).homeStar = s.homeStar)
    (hpred : ∀ p : Nat × Star, pred p = true → p.2.homeStar = false)
    (hin : HomeClean stars) :
    HomeClean (markStars f ((shuffle rand (stars.enum.filter pred)).1.take n) stars) := by
  intro s hs hhome
  obtain ⟨j, hj⟩ := List.mem_iff_getElem?.mp hs
  rw [getElem?_markStars f _ stars j (winners_fst_nodup pred rand stars n)] at hj
  by_cases hjw : j ∈ ((shuffle rand (stars.enum.filter pred)).1.take n).map Prod.fst
  · rw [if_pos hjw] at hj
    obtain ⟨p, hp, hpj⟩ := List.mem_map.mp hjw
    obtain ⟨hg, hpred'⟩ := winners_mem pred rand stars n hp
    rw [← hpj, hg] at hj
    simp only [Option.map_some', Option.some.injEq] at hj
    rw [← hj] at hhome
    rw [hfhome] at hhome
    rw [hpred p hpred'] at hhome
    cases hhome
  · rw [if_neg hjw] at hj
    exact hin s (List.getElem?_mem hj) hhome

theorem homeClean_markStarsIdx_pass (f : Nat → Star → Star) (adv : Nat → Nat)
    (pred : Nat × Star → Bool) (rand : RngState) (stars : List Star) (n k0 : Nat)
    (hfhome : ∀ k s, (f k s).homeStar = s.homeStar)
    (hpred : ∀ p : Nat × Star, pred p = true → p.2.homeStar = false)
    (hin : HomeClean stars) :
    HomeClean (markStarsIdx f adv ((shuffle rand (stars.enum.filter pred)).1.take n)
      stars k0).1 := by
  intro s hs hhome
  obtain ⟨j, hj⟩ := List.mem_iff_getElem?.mp hs
  by_cases hjw : j ∈ ((shuffle rand (stars.enum.filter pred)).1.take n).map Prod.fst
  · obtain ⟨k, hk⟩ := getElem?_markStarsIdx_mem f adv _ stars k0 j
      (winners_fst_nodup pred rand stars n) hjw
    rw [hk] at hj
    obtain ⟨p, hp, hpj⟩ := List.mem_map.mp hjw
    obtain ⟨hg, hpred'⟩ := winners_mem pred rand stars n hp
    rw [← hpj, hg] at hj
    simp only [Option.map_some', Option.some.injEq] at hj
    rw [← hj] at hhome
    rw [hfhome] at hhome
    rw [hpred p hpred'] at hhome
    cases hhome
  · rw [getElem?_markStarsIdx_notMem f adv _ stars k0 j hjw] at hj
    exact hin s (List.getElem?_mem hj) hhome

/-! ### Per-pass wrappers: home stars stay clean -/

theorem homeClean_generateGates (svc : Services) (rand : RngState) (stars : List Star)
    (pc pct : Nat) (h : HomeClean stars) :
    HomeClean (_generateGates svc rand stars pc pct).1 := by
  simp only [_generateGates]
  exact homeClean_markStars_pass _ _ rand stars _ (fun s => rfl)
    (fun p hp => by
      simp only [Bool.and_eq_true, Bool.not_eq_true'] at hp
      exact hp.1.1) h

theorem homeClean_generateNebulas (svc : Services) (rand : RngState) (rsk : Nat)
    (game : Game) (stars : List Star) (pc pct : Nat) (h : HomeClean stars) :
    HomeClean (_generateNebulas svc rand rsk game stars pc pct).1 := by
  simp only [_generateNebulas]
  refine homeClean_markStarsIdx_pass _ _ _ rand stars _ _ ?_
    (fun p hp => by
      simp only [Bool.and_eq_true, Bool.not_eq_true'] at hp
      exact hp.1.1) h
  intro k s
  by_cases hsp : svc.isSplitResources game = true
  · simp only [if_pos hsp]
  · simp only [if_neg hsp]

theorem homeClean_generateAsteroidFields (svc : Services) (rand : RngState) (rsk : Nat)
    (game : Game) (stars : List Star) (pc pct : Nat) (h : HomeClean stars) :
    HomeClean (_generateAsteroidFields svc rand rsk game stars pc pct).1 := by
  simp only [_generateAsteroidFields]
  refine homeClean_markStarsIdx_pass _ _ _ rand stars _ _ ?_
    (fun p hp => by
      simp only [Bool.and_eq_true, Bool.not_eq_true'] at hp
      exact hp.1.1) h
  intro k s
  by_cases hsp : svc.isSplitResources game = true
  · simp only [if_pos hsp]
  · simp only [if_neg hsp]

theorem homeClean_generateBinaryStars (svc : Services) (rand : RngState) (rsk : Nat)
    (game : Game) (stars : List Star) (pc pct : Nat) (h : HomeClean stars) :
    HomeClean (_generateBinaryStars svc rand rsk game stars pc pct).1 := by
  simp only [_generateBinaryStars]
  refine homeClean_markStarsIdx_pass _ _ _ rand stars _ _ ?_
    (fun p hp => by
      simp only [Bool.and_eq_true, Bool.not_eq_true'] at hp
      exact hp.1.1) h
  intro k s
  by_cases hsp : svc.isSplitResources game = true
  · simp only [if_pos hsp]
  · simp only [if_neg hsp]

theorem homeClean_generateBlackHoles (svc : Services) (rand : RngState)
    (game : Game) (stars : List Star) (pc pct : Nat) (h : HomeClean stars) :
    HomeClean (_generateBlackHoles svc rand game stars pc pct).1 := by
  simp only [_generateBlackHoles]
  exact homeClean_markStars_pass _ _ rand stars _ (fun s => rfl)
    (fun p hp => by
      simp only [Bool.and_eq_true, Bool.not_eq_true'] at hp
      exact hp.1.1) h

theorem homeClean_generatePulsars (svc : Services) (rand : RngState)
    (game : Game) (stars : List Star) (pc pct : Nat) (h : HomeClean stars) :
    HomeClean (_generatePulsars svc rand game stars pc pct).1 := by
  simp only [_generatePulsars]
  exact homeClean_markStars_pass _ _ rand stars _ (fun s => rfl)
    (fun p hp => by
      simp only [Bool.and_eq_true, Bool.not_eq_true'] at hp
      exact hp.1.1) h

theorem homeClean_modifyStar (l : List Star) (i : Nat) (f : Star → Star) (s : Star)
    (hs : l[i]? = some s) (hf : (f s).homeStar = s.homeStar) (hshome : s.homeStar = false)
    (h : HomeClean l) : HomeClean (modifyStar l i f) := by
  intro t ht hthome
  obtain ⟨j, hj⟩ := List.mem_iff_getElem?.mp ht
  by_cases hij : j = i
  · subst hij
    rw [getElem?_modifyStar_self, hs] at hj
    injection hj with hj
    rw [← hj, hf, hshome] at hthome
    cases hthome
  · rw [getElem?_modifyStar_ne _ _ _ _ hij] at hj
    exact h t (List.getElem?_mem hj) hthome

theorem homeClean_wormHoleLoop :
    ∀ (count : Nat) (ws : List (Nat × Star)) (stars res : List Star),
      wormHoleLoop count ws stars = some res →
      (∀ p ∈ ws, p.2.homeStar = false) →
      (∀ p ∈ ws, stars[p.1]? = some p.2) →
      (ws.map Prod.fst).Nodup →
      HomeClean stars → HomeClean res
  | 0, ws, stars, res, h, _, _, _, hin => by
    simp only [wormHoleLoop, Option.some.injEq] at h
    rw [← h]
    exact hin
  | count + 1, [], stars, res, h, _, _, _, _ => by simp [wormHoleLoop] at h
  | count + 1, [p], stars, res, h, _, _, _, _ => by simp [wormHoleLoop] at h
  | count + 1, a :: b :: rest, stars, res, h, hhome, hmem, hnd, hin => by
    simp only [wormHoleLoop] at h
    simp only [List.map_cons, List.nodup_cons, List.mem_cons, not_or] at hnd
    obtain ⟨⟨hab, hanr⟩, hbnr, hndr⟩ := hnd
    have hsa : stars[a.1]? = some a.2 := hmem a (List.mem_cons_self _ _)
    have hsb : stars[b.1]? = some b.2 :=
      hmem b (List.mem_cons.mpr (Or.inr (List.mem_cons_self _ _)))
    have hinA : HomeClean (modifyStar stars a.1
        (fun s => { s with wormHoleToStarId := some b.2._id })) :=
      homeClean_modifyStar stars a.1 _ a.2 hsa rfl (hhome a (List.mem_cons_self _ _)) hin
    have hsbA : (modifyStar stars a.1
        (fun s => { s with wormHoleToStarId := some b.2._id }))[b.1]? = some b.2 := by
      rw [getElem?_modifyStar_ne _ _ _ _ (fun hh => hab hh.symm)]
      exact hsb
    have hinB : HomeClean (modifyStar (modifyStar stars a.1
        (fun s => { s with wormHoleToStarId := some b.2._id })) b.1
        (fun s => { s with wormHoleToStarId := some a.2._id })) :=
      homeClean_modifyStar _ b.1 _ b.2 hsbA rfl
        (hhome b (List.mem_cons.mpr (Or.inr (List.mem_cons_self _ _)))) hinA
    refine homeClean_wormHoleLoop count rest _ res h ?_ ?_ hndr hinB
    · intro p hp
      exact hhome p (List.mem_cons.mpr (Or.inr (List.mem_cons.mpr (Or.inr hp))))
    · intro p hp
      rw [getElem?_modifyStar_ne _ _ _ _
          (fun hh => hbnr (by rw [← hh]; exact List.mem_map_of_mem Prod.fst hp)),
        getElem?_modifyStar_ne _ _ _ _
          (fun hh => hanr (by rw [← hh]; exact List.mem_map_of_mem Prod.fst hp))]
      exact hmem p (List.mem_cons.mpr (Or.inr (List.mem_cons.mpr (Or.inr hp))))

/-- Unfolding lemma for `_generateWormHoles`: the definition with its
`let` bindings substituted, so that case analysis on the pairing loop's
result does not re-unfold the quota arithmetic. -/
theorem generateWormHoles_eq (svc : Services) (rand : RngState) (game : Game)
    (stars : List Star) (pc pct : Nat) :
    _generateWormHoles svc rand game stars pc pct
      = (match wormHoleLoop (wormHolePairCount stars.length pc pct)
            ((shuffle rand (stars.enum.filter (fun p => !p.2.homeStar &&
              p.2.wormHoleToStarId.isNone && !svc.isDeadStar p.2))).1.take
                (wormHolePairCount stars.length pc pct * 2)) stars with
          | some res => some (res, (shuffle rand (stars.enum.filter (fun p =>
              !p.2.homeStar && p.2.wormHoleToStarId.isNone &&
              !svc.isDeadStar p.2))).2)
          | none => none) := rfl

set_option maxHeartbeats 1000000 in
theorem homeClean_generateWormHoles (svc : Services) (rand : RngState) (game : Game)
    (stars : List Star) (pc pct : Nat) (out : List Star × RngState)
    (h : _generateWormHoles svc rand game stars pc pct = some out)
    (hin : HomeClean stars) : HomeClean out.1 := by
  rw [generateWormHoles_eq] at h
  split at h
  case h_2 => exact absurd h (by simp)
  case h_1 res heq =>
    injection h with h
    rw [← h]
    refine homeClean_wormHoleLoop _ _ stars res heq ?_
      (fun p hp => (winners_mem _ rand stars _ hp).1)
      (winners_fst_nodup _ rand stars _) hin
    intro p hp
    have hpr := (winners_mem _ rand stars _ hp).2
    simp only [Bool.and_eq_true, Bool.not_eq_true'] at hpr
    exact hpr.1.1

/-! ### Per-pass wrappers: id and wormhole fields -/

theorem proj_generateGates (svc : Services) (rand : RngState) (stars : List Star)
    (pc pct : Nat) :
    ((_generateGates svc rand stars pc pct).1).map projStar = stars.map projStar := by
  simp only [_generateGates]
  refine map_markStars projStar _ ?_ _ _
  intro s
  rfl

theorem proj_generateNebulas (svc : Services) (rand : RngState) (rsk : Nat) (game : Game)
    (stars : List Star) (pc pct : Nat) :
    ((_generateNebulas svc rand rsk game stars pc pct).1).map projStar
      = stars.map projStar := by
  simp only [_generateNebulas]
  refine map_markStarsIdx projStar _ _ ?_ _ _ _
  intro k s
  by_cases hsp : svc.isSplitResources game = true
  · simp only [if_pos hsp]
    rfl
  · simp only [if_neg hsp]
    rfl

theorem proj_generateAsteroidFields (svc : Services) (rand : RngState) (rsk : Nat)
    (game : Game) (stars : List Star) (pc pct : Nat) :
    ((_generateAsteroidFields svc rand rsk game stars pc pct).1).map projStar
      = stars.map projStar := by
  simp only [_generateAsteroidFields]
  refine map_markStarsIdx projStar _ _ ?_ _ _ _
  intro k s
  by_cases hsp : svc.isSplitResources game = true
  · simp only [if_pos hsp]
    rfl
  · simp only [if_neg hsp]
    rfl

theorem proj_generateBinaryStars (svc : Services) (rand : RngState) (rsk : Nat)
    (game : Game) (stars : List Star) (pc pct : Nat) :
    ((_generateBinaryStars svc rand rsk game stars pc pct).1).map projStar
      = stars.map projStar := by
  simp only [_generateBinaryStars]
  refine map_markStarsIdx projStar _ _ ?_ _ _ _
  intro k s
  by_cases hsp : svc.isSplitResources game = true
  · simp only [if_pos hsp]
    rfl
  · simp only [if_neg hsp]
    rfl

theorem proj_generateBlackHoles (svc : Services) (rand : RngState) (game : Game)
    (stars : List Star) (pc pct : Nat) :
    ((_generateBlackHoles svc rand game stars pc pct).1).map projStar
      = stars.map projStar := by
  simp only [_generateBlackHoles]
  refine map_markStars projStar _ ?_ _ _
  intro s
  rfl

theorem proj_generatePulsars (svc : Services) (rand : RngState) (game : Game)
    (stars : List Star) (pc pct : Nat) :
    ((_generatePulsars svc rand game stars pc pct).1).map projStar
      = stars.map projStar := by
  simp only [_generatePulsars]
  refine map_markStars projStar _ ?_ _ _
  intro s
  rfl

set_option maxHeartbeats 1000000 in
theorem symPos_generateWormHoles (svc : Services) (rand : RngState) (game : Game)
    (stars : List Star) (pc pct : Nat) (out : List Star × RngState)
    (h : _generateWormHoles svc rand game stars pc pct = some out)
    (hids : (stars.map Star._id).Nodup)
    (hsym : SymPos (stars.map projStar)) :
    SymPos (out.1.map projStar) ∧ out.1.map Star._id = stars.map Star._id := by
  rw [generateWormHoles_eq] at h
  split at h
  case h_2 => exact absurd h (by simp)
  case h_1 res heq =>
    injection h with h
    rw [← h]
    constructor
    · refine wormHoleLoop_symPos _ _ stars res heq (winners_fst_nodup _ rand stars _)
        (fun p hp => (winners_mem _ rand stars _ hp).1) ?_ hids hsym
      intro p hp
      have := (winners_mem _ rand stars _ hp).2
      simp only [Bool.and_eq_true, Bool.not_eq_true'] at this
      exact Option.isNone_iff_eq_none.mp this.1.2
    · exact map_wormHoleLoop Star._id (fun s t => rfl) _ _ stars res heq

/-! ### Invariants through the whole terrain pipeline -/

theorem generateTerrain_inv (Inv : List Star → Prop) (svc : Services) (rand : RngState)
    (rsk : Nat) (game : Game) (stars : List Star) (out : List Star × RngState × Nat)
    (hg : ∀ r s pct, Inv s →
      Inv (_generateGates svc r s game.settings.general.playerLimit pct).1)
    (hw : ∀ r s pct o, Inv s →
      _generateWormHoles svc r game s game.settings.general.playerLimit pct = some o →
      Inv o.1)
    (hn : ∀ r k s pct, Inv s →
      Inv (_generateNebulas svc r k game s game.settings.general.playerLimit pct).1)
    (haf : ∀ r k s pct, Inv s →
      Inv (_generateAsteroidFields svc r k game s game.settings.general.playerLimit pct).1)
    (hbin : ∀ r k s pct, Inv s →
      Inv (_generateBinaryStars svc r k game s game.settings.general.playerLimit pct).1)
    (hbh : ∀ r s pct, Inv s →
      Inv (_generateBlackHoles svc r game s game.settings.general.playerLimit pct).1)
    (hpu : ∀ r s pct, Inv s →
      Inv (_generatePulsars svc r game s game.settings.general.playerLimit pct).1)
    (h0 : Inv stars)
    (hsucc : generateTerrain svc rand rsk game stars = some out) :
    Inv out.1 := by
  simp only [generateTerrain] at hsucc
  split at hsucc
  case h_1 => exact absurd hsucc (by simp)
  case h_2 g2 heq =>
    injection hsucc with hsucc
    set G1 := (if game.settings.specialGalaxy.randomWarpGates ≠ 0 then
        _generateGates svc rand stars game.settings.general.playerLimit
          game.settings.specialGalaxy.randomWarpGates
      else (stars, rand)) with hG1
    have h1 : Inv G1.1 := by
      rw [hG1]
      split
      · exact hg _ _ _ h0
      · exact h0
    have h2 : Inv g2.1 := by
      by_cases hc : game.settings.specialGalaxy.randomWormHoles ≠ 0
      · rw [if_pos hc] at heq
        exact hw _ _ _ _ h1 heq
      · rw [if_neg hc] at heq
        injection heq with heq
        rw [← heq]
        exact h1
    set G3 := (if game.settings.specialGalaxy.randomNebulas ≠ 0 then
        _generateNebulas svc g2.2 rsk game g2.1 game.settings.general.playerLimit
          game.settings.specialGalaxy.randomNebulas
      else (g2.1, g2.2, rsk)) with hG3
    have h3 : Inv G3.1 := by
      rw [hG3]
      split
      · exact hn _ _ _ _ h2
      · exact h2
    set G4 := (if game.settings.specialGalaxy.randomAsteroidFields ≠ 0 then
        _generateAsteroidFields svc G3.2.1 G3.2.2 game G3.1
          game.settings.general.playerLimit
          game.settings.specialGalaxy.randomAsteroidFields
      else G3) with hG4
    have h4 : Inv G4.1 := by
      rw [hG4]
      split
      · exact haf _ _ _ _ h3
      · exact h3
    set G5 := (if game.settings.specialGalaxy.randomBinaryStars ≠ 0 then
        _generateBinaryStars svc G4.2.1 G4.2.2 game G4.1
          game.settings.general.playerLimit
          game.settings.specialGalaxy.randomBinaryStars
      else G4) with hG5
    have h5 : Inv G5.1 := by
      rw [hG5]
      split
      · exact hbin _ _ _ _ h4
      · exact h4
    set G6 := (if game.settings.specialGalaxy.randomBlackHoles ≠ 0 then
        _generateBlackHoles svc G5.2.1 game G5.1 game.settings.general.playerLimit
          game.settings.specialGalaxy.randomBlackHoles
      else (G5.1, G5.2.1)) with hG6
    have h6 : Inv G6.1 := by
      rw [hG6]
      split
      · exact hbh _ _ _ h5
      · exact h5
    set G7 := (if game.settings.specialGalaxy.randomPulsars ≠ 0 then
        _generatePulsars svc G6.2 game G6.1 game.settings.general.playerLimit
          game.settings.specialGalaxy.randomPulsars
      else G6) with hG7
    have h7 : Inv G7.1 := by
      rw [hG7]
      split
      · exact hpu _ _ _ h6
      · exact h6
    rw [← hsucc]
    exact h7

theorem enum_filter_length_pred (pred : Nat × Star → Bool) (q : Star → Bool)
    (hq : ∀ p : Nat × Star, pred p = q p.2) (stars : List Star) :
    (stars.enum.filter pred).length = (stars.filter q).length := by
  rw [← List.countP_eq_length_filter, ← List.countP_eq_length_filter]
  have h1 : stars.enum.countP pred = stars.enum.countP (fun p => q p.2) :=
    List.countP_congr (fun p _ => by rw [hq p])
  rw [h1]
  have h2 : stars.enum.countP (fun p => q p.2)
      = (stars.enum.map Prod.snd).countP q := by
    rw [List.countP_map]
    rfl
  rw [h2, List.enum_map_snd]

set_option maxHeartbeats 1000000 in
theorem generateWormHoles_isSome_iff (svc : Services) (rand : RngState) (game : Game)
    (stars : List Star) (playerCount percentage : Nat) :
    (_generateWormHoles svc rand game stars playerCount percentage).isSome = true ↔
      2 * wormHolePairCount stars.length playerCount percentage ≤
        (stars.filter (fun s => !s.homeStar && s.wormHoleToStarId.isNone &&
          !svc.isDeadStar s)).length := by
  rw [generateWormHoles_eq]
  have hfl := enum_filter_length_pred
    (fun p => !p.2.homeStar && p.2.wormHoleToStarId.isNone && !svc.isDeadStar p.2)
    (fun s => !s.homeStar && s.wormHoleToStarId.isNone && !svc.isDeadStar s)
    (fun p => rfl) stars
  split
  case h_1 res heq =>
    have h1 := (wormHoleLoop_isSome _ _ stars).mp (by rw [heq]; rfl)
    rw [List.length_take, shuffle_length] at h1
    simp only [Option.isSome_some, true_iff]
    rw [← hfl]
    exact h1.trans (Nat.min_le_right _ _)
  case h_2 heq =>
    have h1 : ¬((wormHoleLoop
        (wormHolePairCount stars.length playerCount percentage)
        (List.take (wormHolePairCount stars.length playerCount percentage * 2)
          (shuffle rand (stars.enum.filter (fun p => !p.2.homeStar &&
            p.2.wormHoleToStarId.isNone && !svc.isDeadStar p.2))).1)
        stars).isSome = true) := by
      rw [heq]
      simp
    rw [wormHoleLoop_isSome] at h1
    rw [List.length_take, shuffle_length] at h1
    refine iff_of_false (by simp) ?_
    rw [← hfl]
    intro hc
    exact h1 (Nat.le_min.mpr ⟨by omega, hc⟩)

/-- C10: the wormhole pairing loop is safe precisely when the applicable
star set (non-home, not already paired, not dead) contains at least
`2 × wormHoleCount` stars: under that precondition every index the loop
reads is in bounds and the pass succeeds; with fewer applicable stars the
loop reads past the end of the sliced winner list and dereferences
`undefined` (the pass yields `none`). -/
theorem wormhole_loop_safety (svc : Services) (rand : RngState) (game : Game)
    (stars : List Star) (playerCount percentage : Nat) :
    (_generateWormHoles svc rand game stars playerCount percentage).isSome = true ↔
      2 * wormHolePairCount stars.length playerCount percentage ≤
        (stars.filter (fun s => !s.homeStar && s.wormHoleToStarId.isNone &&
          !svc.isDeadStar s)).length :=
  generateWormHoles_isSome_iff svc rand game stars playerCount percentage

/-- C5: `generateTerrain` is deterministic — two runs on identical
configuration, identical starting star state, identical `randomService`
counter, and RNGs producing the identical draw sequence yield identical
feature assignments and resource values on every star. -/
theorem generateTerrain_deterministic (svc : Services) (rsk : Nat) (game : Game)
    (stars : List Star) (r1 r2 : RngState)
    (hseq : ∀ n, r1.seq n = r2.seq n) (hidx : r1.idx = r2.idx) :
    generateTerrain svc r1 rsk game stars = generateTerrain svc r2 rsk game stars := by
  have h : r1 = r2 := by
    cases r1
    cases r2
    simp only [RngState.mk.injEq]
    exact ⟨funext hseq, hidx⟩
  rw [h]

/-- Witness for C5 at a concrete input: two syntactically different RNGs
with the same draw sequence produce the same terrain. -/
theorem generateTerrain_deterministic_witness :
    (∀ n, (RngState.mk (fun n => n) 0).seq n = (RngState.mk (fun n => n + 0) 0).seq n) ∧
    generateTerrain testServices (RngState.mk (fun n => n) 0) 0
        (mkGame "circular" 2 10 50 25 25 25 25 25) (testStars 10 2)
      = generateTerrain testServices (RngState.mk (fun n => n + 0) 0) 0
        (mkGame "circular" 2 10 50 25 25 25 25 25) (testStars 10 2) :=
  ⟨fun _ => rfl,
    generateTerrain_deterministic testServices 0 (mkGame "circular" 2 10 50 25 25 25 25 25)
      (testStars 10 2) (RngState.mk (fun n => n) 0) (RngState.mk (fun n => n + 0) 0)
      (fun _ => rfl) rfl⟩

unseal Rat.mul Rat.add Rat.sub Rat.inv Rat.ofScientific natLog2Go natLog2 floorLog2 roundNearestEven fl singlePassCount wormHolePairCount in
/-- Counterexample to C6 as stated: `getGalaxyCenter` sorts the caller's
array in place four times, so the call does not leave the input list's
order unchanged — on `[(0,1), (5,0)]` the array ends up reordered. -/
theorem galaxy_center_mutates_input_counterexample :
    ¬((getGalaxyCenter c6Locations).2 = c6Locations) := by decide

/-- C6 amended: `getGalaxyCenterOfMass` is a pure, non-mutating query, and
`getGalaxyCenter` preserves the input list's length and elements but not
their order (its four in-place sorts leave the array permuted). -/
theorem galaxy_center_frame_amended (ls : List LocationBase) :
    (getGalaxyCenterOfMass ls).2 = ls ∧ ((getGalaxyCenter ls).2).Perm ls := by
  constructor
  · simp only [getGalaxyCenterOfMass]
    split
    · rfl
    · rfl
  · simp only [getGalaxyCenter, sortJS]
    split
    · exact List.Perm.refl _
    · exact ((List.perm_insertionSort _ _).trans
        ((List.perm_insertionSort _ _).trans
          ((List.perm_insertionSort _ _).trans (List.perm_insertionSort _ _))))

/-- C7: for every galaxy-type tag that is not one of the six supported
topologies, `generateStars` returns the configuration error (the
`ValidationError` of the switch's default branch), raised before any star
is created — the error does not depend on any collaborator and carries no
stars. -/
theorem unsupported_galaxy_type_errors (svc : Services) (rand : RngState) (game : Game)
    (starCount playerLimit : Nat) (customJSON customSeed : Option String)
    (hne : game.settings.galaxy.galaxyType ∉
      (["circular", "spiral", "doughnut", "circular-balanced", "irregular",
        "custom"] : List String)) :
    generateStars svc rand game starCount playerLimit customJSON customSeed
      = .error ("Galaxy type " ++ game.settings.galaxy.galaxyType ++
          " is not supported or has been disabled.") := by
  simp only [generateStars]
  simp only [List.mem_cons, List.not_mem_nil, or_false, not_or] at hne
  obtain ⟨h1, h2, h3, h4, h5, h6⟩ := hne
  rw [if_neg h1, if_neg h2, if_neg h3, if_neg h4, if_neg h5, if_neg h6]

/-- Witness for C7 at the concrete unsupported tag `"hexagonal"`. -/
theorem unsupported_galaxy_type_errors_witness :
    ("hexagonal" ∉ (["circular", "spiral", "doughnut", "circular-balanced", "irregular",
        "custom"] : List String)) ∧
    generateStars testServices testRng (mkGame "hexagonal" 2 0 0 0 0 0 0 0) 5 2 none none
      = .error ("Galaxy type " ++ "hexagonal" ++ " is not supported or has been disabled.") :=
  ⟨by decide,
    unsupported_galaxy_type_errors testServices testRng (mkGame "hexagonal" 2 0 0 0 0 0 0 0)
      5 2 none none (by decide)⟩

/-- C9: every star selected by the black-hole pass (flagged `isBlackHole`
in the result, where no star carried the flag before) has each of its three
resource channels replaced by `ceil(0.2 × previous value)` — the pass never
consults the split-resources mode — and `ceil(0.2·x) ≤ x` holds for every
natural number `x`, so no integer-valued channel increases. -/
theorem black_hole_resource_reduction (svc : Services) (rand : RngState) (game : Game)
    (stars : List Star) (playerCount percentage : Nat)
    (hinit : ∀ s ∈ stars, s.isBlackHole = false) :
    (∀ (j : Nat) (s' : Star),
      (_generateBlackHoles svc rand game stars playerCount percentage).1[j]? = some s' →
      s'.isBlackHole = true →
      ∃ s, stars[j]? = some s ∧
        s'.naturalResources.economy = ((⌈s.naturalResources.economy * 0.2⌉ : ℤ) : ℚ) ∧
        s'.naturalResources.industry = ((⌈s.naturalResources.industry * 0.2⌉ : ℤ) : ℚ) ∧
        s'.naturalResources.science = ((⌈s.naturalResources.science * 0.2⌉ : ℤ) : ℚ)) ∧
    (∀ x : Nat, ((⌈((x : ℚ) * 0.2)⌉ : ℤ) : ℚ) ≤ (x : ℚ)) := by
  constructor
  · intro j s' hj hbh
    simp only [_generateBlackHoles] at hj
    rw [getElem?_markStars _ _ stars j (winners_fst_nodup _ rand stars _)] at hj
    by_cases hjw : j ∈ ((shuffle rand (stars.enum.filter (fun p => !p.2.homeStar &&
        !p.2.isBlackHole && !svc.isDeadStar p.2))).1.take
          (singlePassCount stars.length playerCount percentage)).map Prod.fst
    · rw [if_pos hjw] at hj
      cases hs : stars[j]? with
      | none =>
        rw [hs] at hj
        simp at hj
      | some s =>
        rw [hs] at hj
        simp only [Option.map_some', Option.some.injEq] at hj
        exact ⟨s, rfl, by rw [← hj], by rw [← hj], by rw [← hj]⟩
    · rw [if_neg hjw] at hj
      exact absurd hbh (by simp [hinit s' (List.getElem?_mem hj)])
  · intro x
    have h2 : ⌈((x : ℚ) * 0.2)⌉ ≤ (x : ℤ) := by
      rw [Int.ceil_le]
      push_cast
      nlinarith [Nat.cast_nonneg (α := ℚ) x]
    exact_mod_cast h2

/-- Witness for C9: a concrete black-hole pass run (all three stars become
black holes) plus the reduction bound at `x = 7`. -/
theorem black_hole_resource_reduction_witness :
    (∀ s ∈ testStars 3 0, s.isBlackHole = false) ∧
    ((⌈((7 : Nat) : ℚ) * 0.2⌉ : ℤ) : ℚ) ≤ ((7 : Nat) : ℚ) :=
  ⟨by decide,
    (black_hole_resource_reduction testServices testRng (mkGame "circular" 0 0 0 0 0 0 100 0)
      (testStars 3 0) 0 100 (by decide)).2 7⟩

set_option maxRecDepth 100000 in
unseal Rat.mul Rat.add Rat.sub Rat.inv Rat.ofScientific natLog2Go natLog2 floorLog2 roundNearestEven fl singlePassCount wormHolePairCount in
/-- Counterexample to C2 as stated: with an eligible pool of 29 stars (no
home stars, none dead, no flags) and warp-gate percentage 100 the claim
predicts `⌊29·100/100⌋ = 29` warp gates, but the code evaluates
`29 / 100 * 100` in IEEE-754 double precision, where it comes out as
`28.999999999999996`, so `Math.floor` yields `28` — exactly 28 stars are
marked. -/
theorem single_star_quota_claim_counterexample :
    (((_generateGates testServices testRng (testStars 29 0) 0 100).1.filter
        (fun s => s.warpGate)).length = 28) ∧
    ¬(28 = ((testStars 29 0).length - 0) * 100 / 100) := by
  constructor
  · decide
  · decide

/-- C2 amended: with an eligible pool of size `N = starCount − playerCount`
(exactly `playerCount` home stars, no dead stars, no pre-existing feature
flags), each of the six single-star feature passes (warp gates, nebulas,
asteroid fields, binary stars, black holes, pulsars) marks exactly
`Math.floor(N / 100 * P)` stars with its feature flag, where the quota is
evaluated in IEEE-754 double precision and can therefore fall below the
exact `⌊N·P/100⌋` (28 instead of 29 at `N = 29, P = 100`), provided that
quota does not exceed the pool.  The spec's scenario `starCount = 100`,
`playerLimit = 4`, warp-gate percentage `10` still yields exactly `9` warp
gates. -/
theorem single_star_pass_quota_amended (svc : Services) (rand : RngState) (rsk : Nat)
    (game : Game) (stars : List Star) (playerCount percentage : Nat)
    (hhome : stars.countP (fun s => s.homeStar) = playerCount)
    (hdead : ∀ s ∈ stars, svc.isDeadStar s = false)
    (hflags : ∀ s ∈ stars, s.warpGate = false ∧ s.isNebula = false ∧
      s.isAsteroidField = false ∧ s.isBinaryStar = false ∧ s.isBlackHole = false ∧
      s.isPulsar = false)
    (hcnt : singlePassCount stars.length playerCount percentage
      ≤ stars.length - playerCount) :
    (((_generateGates svc rand stars playerCount percentage).1.filter
        (fun s => s.warpGate)).length
      = singlePassCount stars.length playerCount percentage) ∧
    (((_generateNebulas svc rand rsk game stars playerCount percentage).1.filter
        (fun s => s.isNebula)).length
      = singlePassCount stars.length playerCount percentage) ∧
    (((_generateAsteroidFields svc rand rsk game stars playerCount percentage).1.filter
        (fun s => s.isAsteroidField)).length
      = singlePassCount stars.length playerCount percentage) ∧
    (((_generateBinaryStars svc rand rsk game stars playerCount percentage).1.filter
        (fun s => s.isBinaryStar)).length
      = singlePassCount stars.length playerCount percentage) ∧
    (((_generateBlackHoles svc rand game stars playerCount percentage).1.filter
        (fun s => s.isBlackHole)).length
      = singlePassCount stars.length playerCount percentage) ∧
    (((_generatePulsars svc rand game stars playerCount percentage).1.filter
        (fun s => s.isPulsar)).length
      = singlePassCount stars.length playerCount percentage) := by
  have hpool : ∀ pred : Nat × Star → Bool,
      (∀ p : Nat × Star, p.2 ∈ stars → pred p = !p.2.homeStar) →
      (stars.enum.filter pred).length = stars.length - playerCount := by
    intro pred hpred
    rw [enum_filter_length_eq pred stars hpred, hhome]
  refine ⟨?_, ?_, ?_, ?_, ?_, ?_⟩
  · rw [← List.countP_eq_length_filter]
    simp only [_generateGates]
    refine countP_select_pass (fun s => s.warpGate) _ _ rand stars _ (fun s => rfl)
      (fun s hs => (hflags s hs).1) ?_
    rw [hpool _ (fun p hp => by simp [hdead p.2 hp, (hflags p.2 hp).1])]
    exact hcnt
  · rw [← List.countP_eq_length_filter]
    simp only [_generateNebulas]
    refine countP_select_pass_idx (fun s => s.isNebula) _ _ _ rand stars _ _ ?_
      (fun s hs => (hflags s hs).2.1) ?_
    · intro k s
      split
      · rfl
      · rfl
    · rw [hpool _ (fun p hp => by simp [hdead p.2 hp, (hflags p.2 hp).2.1])]
      exact hcnt
  · rw [← List.countP_eq_length_filter]
    simp only [_generateAsteroidFields]
    refine countP_select_pass_idx (fun s => s.isAsteroidField) _ _ _ rand stars _ _ ?_
      (fun s hs => (hflags s hs).2.2.1) ?_
    · intro k s
      split
      · rfl
      · rfl
    · rw [hpool _ (fun p hp => by simp [hdead p.2 hp, (hflags p.2 hp).2.2.1])]
      exact hcnt
  · rw [← List.countP_eq_length_filter]
    simp only [_generateBinaryStars]
    refine countP_select_pass_idx (fun s => s.isBinaryStar) _ _ _ rand stars _ _ ?_
      (fun s hs => (hflags s hs).2.2.2.1) ?_
    · intro k s
      split
      · rfl
      · rfl
    · rw [hpool _ (fun p hp => by simp [hdead p.2 hp, (hflags p.2 hp).2.2.2.1])]
      exact hcnt
  · rw [← List.countP_eq_length_filter]
    simp only [_generateBlackHoles]
    refine countP_select_pass (fun s => s.isBlackHole) _ _ rand stars _ (fun s => rfl)
      (fun s hs => (hflags s hs).2.2.2.2.1) ?_
    rw [hpool _ (fun p hp => by simp [hdead p.2 hp, (hflags p.2 hp).2.2.2.2.1])]
    exact hcnt
  · rw [← List.countP_eq_length_filter]
    simp only [_generatePulsars]
    refine countP_select_pass (fun s => s.isPulsar) _ _ rand stars _ (fun s => rfl)
      (fun s hs => (hflags s hs).2.2.2.2.2) ?_
    rw [hpool _ (fun p hp => by simp [hdead p.2 hp, (hflags p.2 hp).2.2.2.2.2])]
    exact hcnt

set_option maxRecDepth 100000 in
unseal Rat.mul Rat.add Rat.sub Rat.inv Rat.ofScientific natLog2Go natLog2 floorLog2 roundNearestEven fl singlePassCount wormHolePairCount in
/-- Witness for the amended C2 at the spec's scenario: 100 stars, 4 home
stars (`playerLimit = 4`), warp-gate percentage 10, pool 96 — the binary64
quota is `⌊9.600000000000001⌋ = 9`, exactly 9 warp gates. -/
theorem single_star_pass_quota_amended_witness :
    ((testStars 100 4).countP (fun s => s.homeStar) = 4) ∧
    (((_generateGates testServices testRng (testStars 100 4) 4 10).1.filter
        (fun s => s.warpGate)).length = 9) := by
  refine ⟨by decide, ?_⟩
  have h := single_star_pass_quota_amended testServices testRng 0
    (mkGame "circular" 4 10 0 0 0 0 0 0) (testStars 100 4) 4 10
    (by decide) (by decide) (by decide) (by decide)
  rw [h.1]
  decide

set_option maxRecDepth 100000 in
unseal Rat.mul Rat.add Rat.sub Rat.inv Rat.ofScientific natLog2Go natLog2 floorLog2 roundNearestEven fl singlePassCount wormHolePairCount in
/-- Counterexample to C3 as stated: with 6 applicable stars (no home stars)
and wormhole percentage 50, the claim predicts `⌊6·50/100⌋ = 3` pairs, i.e.
6 endpoint stars, but the pass divides by 200 (`/ 2 / 100` in binary64,
where `6 / 2 / 100 * 50` evaluates to exactly `1.5`) and selects
`⌊1.5⌋ = 1` pair — exactly 2 stars are marked. -/
theorem wormhole_quota_claim_counterexample :
    ((_generateWormHoles testServices testRng (mkGame "circular" 0 0 50 0 0 0 0 0)
        (testStars 6 0) 0 50).map
      (fun r => (r.1.filter (fun s => s.wormHoleToStarId.isSome)).length)) = some 2 ∧
    ¬(2 = 2 * (((testStars 6 0).length - 0) * 50 / 100)) := by
  constructor
  · decide
  · decide

/-- C3 amended: for eligible pool size `N = starCount − playerCount`
(exactly `playerCount` home stars, no dead stars, no pre-existing
wormholes), the wormhole pass succeeds and selects exactly
`Math.floor(N / 2 / 100 * P)` pairs — the divisor is 200, not 100, because
wormholes consume stars in pairs, and the quota is evaluated in IEEE-754
double precision, which can fall below the exact `⌊N·P/200⌋` (28 pairs
instead of 29 at `N = 58, P = 100`) — i.e. marks twice that many stars as
wormhole endpoints, provided the doubled quota does not exceed the pool. -/
theorem wormhole_pass_quota_amended (svc : Services) (rand : RngState) (game : Game)
    (stars : List Star) (playerCount percentage : Nat)
    (hhome : stars.countP (fun s => s.homeStar) = playerCount)
    (hdead : ∀ s ∈ stars, svc.isDeadStar s = false)
    (hworm : ∀ s ∈ stars, s.wormHoleToStarId = none)
    (hcnt : 2 * wormHolePairCount stars.length playerCount percentage
      ≤ stars.length - playerCount) :
    ∃ res, _generateWormHoles svc rand game stars playerCount percentage = some res ∧
      (res.1.filter (fun s => s.wormHoleToStarId.isSome)).length
        = 2 * wormHolePairCount stars.length playerCount percentage := by
  have hpoolStars : (stars.filter (fun s => !s.homeStar && s.wormHoleToStarId.isNone &&
      !svc.isDeadStar s)).length = stars.length - playerCount := by
    rw [← enum_filter_length_pred (fun p => !p.2.homeStar && p.2.wormHoleToStarId.isNone &&
      !svc.isDeadStar p.2) _ (fun p => rfl) stars]
    rw [enum_filter_length_eq _ stars (fun p hp => by simp [hdead p.2 hp, hworm p.2 hp]),
      hhome]
  have hsafe : (_generateWormHoles svc rand game stars playerCount percentage).isSome
      = true := by
    rw [generateWormHoles_isSome_iff, hpoolStars]
    exact hcnt
  obtain ⟨res, hres⟩ := Option.isSome_iff_exists.mp hsafe
  refine ⟨res, hres, ?_⟩
  rw [generateWormHoles_eq] at hres
  split at hres
  case h_2 => exact absurd hres (by simp)
  case h_1 res0 heq =>
    injection hres with hres
    rw [← hres]
    rw [← List.countP_eq_length_filter]
    have hlen : (List.take (wormHolePairCount stars.length playerCount percentage * 2)
        (shuffle rand (stars.enum.filter (fun p => !p.2.homeStar &&
          p.2.wormHoleToStarId.isNone && !svc.isDeadStar p.2))).1).length
        = 2 * wormHolePairCount stars.length playerCount percentage := by
      rw [List.length_take, shuffle_length,
        enum_filter_length_pred (fun p => !p.2.homeStar && p.2.wormHoleToStarId.isNone &&
            !svc.isDeadStar p.2)
          (fun s => !s.homeStar && s.wormHoleToStarId.isNone && !svc.isDeadStar s)
          (fun p => rfl) stars, hpoolStars]
      omega
    rw [countP_wormHoleLoop _ _ stars res0 heq hlen (winners_fst_nodup _ rand stars _) ?_]
    · rw [hlen]
      have hz : stars.countP (fun s => s.wormHoleToStarId.isSome) = 0 :=
        List.countP_eq_zero.mpr (fun s hs => by simp [hworm s hs])
      omega
    · intro p hp
      obtain ⟨hg, _⟩ := winners_mem _ rand stars _ hp
      exact ⟨p.2, hg, hworm p.2 (List.getElem?_mem hg)⟩

set_option maxRecDepth 100000 in
unseal Rat.mul Rat.add Rat.sub Rat.inv Rat.ofScientific natLog2Go natLog2 floorLog2 roundNearestEven fl singlePassCount wormHolePairCount in
/-- Witness for the amended C3 at a concrete input: 10 stars, 2 home stars,
percentage 50 — pool 8, the binary64 pair count is `⌊2.0⌋ = 2`, so 4
endpoint stars. -/
theorem wormhole_pass_quota_amended_witness :
    ((testStars 10 2).countP (fun s => s.homeStar) = 2) ∧
    (match _generateWormHoles testServices testRng (mkGame "circular" 2 0 50 0 0 0 0 0)
        (testStars 10 2) 2 50 with
     | some res => (res.1.filter (fun s => s.wormHoleToStarId.isSome)).length = 4
     | none => False) := by
  refine ⟨by decide, ?_⟩
  obtain ⟨res, hres, hcount⟩ := wormhole_pass_quota_amended testServices testRng
    (mkGame "circular" 2 0 50 0 0 0 0 0) (testStars 10 2) 2 50
    (by decide) (by decide) (by decide) (by decide)
  rw [hres]
  show (List.filter (fun s => s.wormHoleToStarId.isSome) res.1).length = 4
  rw [hcount]
  decide

set_option maxRecDepth 100000 in
unseal Rat.mul Rat.add Rat.sub Rat.inv Rat.ofScientific natLog2Go natLog2 floorLog2 roundNearestEven fl singlePassCount wormHolePairCount in
/-- Counterexample to C4 as stated: a two-star galaxy whose strategy yields
one home star with one linked satellite.  After `generateStars` the
satellite's id (1) is recorded in `linkedStars = [[1]]`, yet after
`generateTerrain` with warp-gate percentage 100 the satellite carries
`warpGate = true` — the passes exclude only stars with `homeStar`, and a
linked satellite is not a home star. -/
theorem home_linked_clean_counterexample :
    ((generateStars satelliteServices testRng (mkGame "circular" 1 100 0 0 0 0 0 0) 2 1
        none none).toOption.bind
      (fun asm => (generateTerrain satelliteServices testRng 0
          (mkGame "circular" 1 100 0 0 0 0 0 0) asm.stars).map
        (fun t => (asm.linkedStars, t.1.map (fun s => s.warpGate)))))
      = some ([[1]], [false, true]) := by decide

/-- C4 amended: after `generateTerrain`, no home star carries any terrain
feature (provided home stars start featureless); linked satellites of home
stars are not excluded by the passes and may receive features, as the
counterexample exhibits. -/
theorem home_stars_clean_amended (svc : Services) (rand : RngState) (rsk : Nat)
    (game : Game) (stars : List Star) (out : List Star × RngState × Nat)
    (h0 : HomeClean stars)
    (hsucc : generateTerrain svc rand rsk game stars = some out) :
    HomeClean out.1 :=
  generateTerrain_inv HomeClean svc rand rsk game stars out
    (fun r s pct h => homeClean_generateGates svc r s _ pct h)
    (fun r s pct o h ho => homeClean_generateWormHoles svc r game s _ pct o ho h)
    (fun r k s pct h => homeClean_generateNebulas svc r k game s _ pct h)
    (fun r k s pct h => homeClean_generateAsteroidFields svc r k game s _ pct h)
    (fun r k s pct h => homeClean_generateBinaryStars svc r k game s _ pct h)
    (fun r s pct h => homeClean_generateBlackHoles svc r game s _ pct h)
    (fun r s pct h => homeClean_generatePulsars svc r game s _ pct h)
    h0 hsucc

set_option maxRecDepth 100000 in
unseal Rat.mul Rat.add Rat.sub Rat.inv Rat.ofScientific natLog2Go natLog2 floorLog2 roundNearestEven fl singlePassCount wormHolePairCount in
/-- Witness for the amended C4 at a concrete input: ten stars, two of them
home stars, all seven passes enabled. -/
theorem home_stars_clean_amended_witness :
    HomeClean (testStars 10 2) ∧
    (match generateTerrain testServices testRng 0 (mkGame "circular" 2 10 50 25 25 25 25 25)
        (testStars 10 2) with
     | some out => HomeClean out.1
     | none => False) := by
  refine ⟨by unfold HomeClean Featureless; decide, ?_⟩
  cases hcase : generateTerrain testServices testRng 0
      (mkGame "circular" 2 10 50 25 25 25 25 25) (testStars 10 2) with
  | none =>
    have hs : (generateTerrain testServices testRng 0
        (mkGame "circular" 2 10 50 25 25 25 25 25) (testStars 10 2)).isSome = true := by
      decide
    rw [hcase] at hs
    simp at hs
  | some out =>
    exact home_stars_clean_amended testServices testRng 0
      (mkGame "circular" 2 10 50 25 25 25 25 25) (testStars 10 2) out
      (by unfold HomeClean Featureless; decide) hcase

theorem symPos_nodup_of_proj_eq {l1 l2 : List Star}
    (h : l1.map projStar = l2.map projStar)
    (hsym : SymPos (l2.map projStar)) (hnd : (l2.map Star._id).Nodup) :
    SymPos (l1.map projStar) ∧ (l1.map Star._id).Nodup := by
  constructor
  · rw [h]
    exact hsym
  · have h1 : l1.map Star._id = (l1.map projStar).map Prod.fst := by
      rw [List.map_map]
      rfl
    have h2 : l2.map Star._id = (l2.map projStar).map Prod.fst := by
      rw [List.map_map]
      rfl
    rw [h1, h, ← h2]
    exact hnd

/-- C1: after `generateTerrain` completes (on a star collection with
distinct ids and no pre-existing wormholes), wormhole pairing is mutual and
irreflexive — for every star `A` whose `wormHoleToStarId` equals the id of a
star `B` of the result, `B`'s `wormHoleToStarId` equals `A`'s id, and `A` is
a different star than `B`. -/
theorem wormhole_pairing_mutual_irreflexive (svc : Services) (rand : RngState) (rsk : Nat)
    (game : Game) (stars : List Star) (out : List Star × RngState × Nat)
    (hworm : ∀ s ∈ stars, s.wormHoleToStarId = none)
    (hids : (stars.map Star._id).Nodup)
    (hsucc : generateTerrain svc rand rsk game stars = some out) :
    ∀ A ∈ out.1, ∀ B ∈ out.1, A.wormHoleToStarId = some B._id →
      B.wormHoleToStarId = some A._id ∧ A ≠ B := by
  have h0sym : SymPos (stars.map projStar) := by
    intro a b i j hai hbj hab
    rw [List.getElem?_map] at hai
    obtain ⟨s, hs, hsa⟩ := Option.map_eq_some'.mp hai
    rw [← hsa] at hab
    rw [show (projStar s).2 = s.wormHoleToStarId from rfl,
      hworm s (List.getElem?_mem hs)] at hab
    cases hab
  have hInv : SymPos (out.1.map projStar) ∧ (out.1.map Star._id).Nodup := by
    refine generateTerrain_inv (fun l => SymPos (l.map projStar) ∧ (l.map Star._id).Nodup)
      svc rand rsk game stars out
      (fun r s pct h => symPos_nodup_of_proj_eq (proj_generateGates svc r s _ pct) h.1 h.2)
      (fun r s pct o h ho =>
        ⟨(symPos_generateWormHoles svc r game s _ pct o ho h.2 h.1).1,
         by rw [(symPos_generateWormHoles svc r game s _ pct o ho h.2 h.1).2]; exact h.2⟩)
      (fun r k s pct h =>
        symPos_nodup_of_proj_eq (proj_generateNebulas svc r k game s _ pct) h.1 h.2)
      (fun r k s pct h =>
        symPos_nodup_of_proj_eq (proj_generateAsteroidFields svc r k game s _ pct) h.1 h.2)
      (fun r k s pct h =>
        symPos_nodup_of_proj_eq (proj_generateBinaryStars svc r k game s _ pct) h.1 h.2)
      (fun r s pct h =>
        symPos_nodup_of_proj_eq (proj_generateBlackHoles svc r game s _ pct) h.1 h.2)
      (fun r s pct h =>
        symPos_nodup_of_proj_eq (proj_generatePulsars svc r game s _ pct) h.1 h.2)
      ⟨h0sym, hids⟩ hsucc
  intro A hA B hB hAB
  obtain ⟨i, hi⟩ := List.mem_iff_getElem?.mp hA
  obtain ⟨j, hj⟩ := List.mem_iff_getElem?.mp hB
  have hpi : (out.1.map projStar)[i]? = some (projStar A) := by
    rw [List.getElem?_map, hi]
    rfl
  have hpj : (out.1.map projStar)[j]? = some (projStar B) := by
    rw [List.getElem?_map, hj]
    rfl
  have hmain := hInv.1 (projStar A) (projStar B) i j hpi hpj hAB
  refine ⟨hmain.1, ?_⟩
  intro hEq
  exact hmain.2 (by rw [hEq])

set_option maxRecDepth 100000 in
unseal Rat.mul Rat.add Rat.sub Rat.inv Rat.ofScientific natLog2Go natLog2 floorLog2 roundNearestEven fl singlePassCount wormHolePairCount in
/-- Witness for C1 at a concrete input: ten stars with distinct ids and no
wormholes, all seven passes enabled (wormhole percentage 50 pairs four
stars). -/
theorem wormhole_pairing_mutual_irreflexive_witness :
    (∀ s ∈ testStars 10 2, s.wormHoleToStarId = none) ∧
    (match generateTerrain testServices testRng 0 (mkGame "circular" 2 10 50 25 25 25 25 25)
        (testStars 10 2) with
     | some out => ∀ A ∈ out.1, ∀ B ∈ out.1, A.wormHoleToStarId = some B._id →
         B.wormHoleToStarId = some A._id ∧ A ≠ B
     | none => False) := by
  refine ⟨by decide, ?_⟩
  cases hcase : generateTerrain testServices testRng 0
      (mkGame "circular" 2 10 50 25 25 25 25 25) (testStars 10 2) with
  | none =>
    have hs : (generateTerrain testServices testRng 0
        (mkGame "circular" 2 10 50 25 25 25 25 25) (testStars 10 2)).isSome = true := by
      decide
    rw [hcase] at hs
    simp at hs
  | some out =>
    exact wormhole_pairing_mutual_irreflexive testServices testRng 0
      (mkGame "circular" 2 10 50 25 25 25 25 25) (testStars 10 2) out
      (by decide) (by decide) hcase

/-- Counterexample to C8 as stated: a one-name pool for a strategy that
produces two stars (one home star plus its linked satellite).
`generateStars` raises no `PreconditionError`: it completes with `.ok`, and
the second star is created with an undefined (missing) name. -/
theorem name_pool_exhaustion_counterexample :
    ((poolShortServices.getRandomStarNames 1).length = 1) ∧
    ((generateStars poolShortServices testRng (mkGame "circular" 1 0 0 0 0 0 0 0) 1 1
        none none).toOption.map (fun r => (r.stars.length, r.stars.map Star.name)))
      = some (2, [some "Alpha", none]) := by
  constructor
  · decide
  · decide

/-- C8 amended: `generateStars` never checks the name pool against the number
of stars to instantiate — for every supported topology it completes with
`.ok` regardless of pool size, and a star whose name index falls outside the
pool is instantiated with an undefined name (as the counterexample
exhibits). -/
theorem name_pool_exhaustion_amended (svc : Services) (rand : RngState) (game : Game)
    (starCount playerLimit : Nat) (customJSON customSeed : Option String)
    (hsup : game.settings.galaxy.galaxyType ∈
      (["circular", "spiral", "doughnut", "circular-balanced", "irregular",
        "custom"] : List String)) :
    ∃ result, generateStars svc rand game starCount playerLimit customJSON customSeed
      = .ok result := by
  simp only [generateStars]
  simp only [List.mem_cons, List.not_mem_nil, or_false] at hsup
  rcases hsup with h | h | h | h | h | h
  · exact ⟨_, by simp only [h]; rfl⟩
  · exact ⟨_, by simp only [h]; rfl⟩
  · exact ⟨_, by simp only [h]; rfl⟩
  · exact ⟨_, by simp only [h]; rfl⟩
  · exact ⟨_, by simp only [h]; rfl⟩
  · exact ⟨_, by simp only [h]; rfl⟩

/-- Witness for the amended C8 at a concrete input: the short-pool run of
the counterexample indeed completes with `.ok`. -/
theorem name_pool_exhaustion_amended_witness :
    ((mkGame "circular" 1 0 0 0 0 0 0 0).settings.galaxy.galaxyType ∈
      (["circular", "spiral", "doughnut", "circular-balanced", "irregular",
        "custom"] : List String)) ∧
    ∃ result, generateStars poolShortServices testRng (mkGame "circular" 1 0 0 0 0 0 0 0)
      1 1 none none = .ok result :=
  ⟨by decide,
    name_pool_exhaustion_amended poolShortServices testRng
      (mkGame "circular" 1 0 0 0 0 0 0 0) 1 1 none none (by decide)⟩

end Solaris
